import Mathlib

/-!
Verification of framebuffer-js (src/framebuffer.js, the current 2024-09-12
version, lines 1-2588 of the concatenated file).

Shallow embedding notes.

The library mutates a global configuration map, a per-resource pixel buffer
(an ImageData byte array), and a canvas display surface.  We model:

  - the pixel buffer `resource.image.data` as `Array Nat` of bytes
    (a `Uint8ClampedArray` in JS: reads outside the bounds give `undefined`,
    modeled as `none` from `getByte`; writes outside the bounds are dropped;
    stored values are clamped to 0..255);
  - the canvas surface as a second byte array `canvas`;
    `context.putImageData(resource.image, 0, 0)` becomes `canvas := data`;
  - the global configuration map `fb_config_map` (plus the two fields of
    `fb_canvas_context_attributes` that its setters touch) as a `ConfigState`
    value threaded explicitly;
  - `Date.now()` as an explicit `now : Nat` argument on the functions that
    consult the clock;
  - JS numbers at the integer and rational values the library actually
    produces: coordinates are `Rat` (the `x |= 0` coercion is `qToInt32`,
    truncation toward zero followed by a signed 32-bit wrap), channel values
    and kernel weights are `Int`.  Binary64 rounding is not modeled; all
    theorems below stay in the regime where binary64 arithmetic is exact
    (integers below 2^53, and divisions whose divisor divides the dividend),
    except that the convolution code path also spells out the IEEE special
    cases (`NaN` from an undefined read, infinities from a zero divisor) in
    the small `JSNum` type.

On the error paths of `fb_create` the JS resource keeps `image = null` and
`canvas = null`; we model the absent buffers as empty arrays.  No claim
evaluates a pixel operation on such a resource (a JS pixel access on it would
throw).  `fb_valid` checks `instanceof FBResource` and the presence of twelve
fields, all of which the structure type guarantees, so on `Option FBResource`
it is exactly the null test.

`fb_line` and `fb_circle` step along lengths computed with `Math.sqrt` /
trigonometry (irrational values); they are outside this embedding, and the
outline (`fill = false`) branch of `fb_rect`, which only draws four
`fb_line`s, is modeled as a no-op on the buffer.  No claim below depends on
that branch.  All pixel writes those functions perform go through
`fb_set_pixel`, whose properties are proved here for arbitrary rational
coordinates.
-/

/-! ## JS number coercions -/

/-- Signed 32-bit wrap: the result of `ToInt32` on an integer value
(the `| 0` coercion after truncation). -/
def toInt32 (n : Int) : Int :=
  (n + 2147483648) % 4294967296 - 2147483648

/-- Truncation toward zero of a rational (the integer part `ToIntegerOrInfinity`
computes before the 32-bit wrap of `| 0`). -/
def jsTrunc (q : ℚ) : Int :=
  if q < 0 then -⌊-q⌋ else ⌊q⌋

/-- The full `x | 0` coercion on a (finite) JS number. -/
def qToInt32 (q : ℚ) : Int := toInt32 (jsTrunc q)

/-- `ToUint8Clamp` on an integer value: clamp into 0..255. -/
def u8I (v : Int) : Nat := (min 255 (max 0 v)).toNat

/-- `ToUint8Clamp` on a finite rational value: clamp into 0..255 and round
half to even. -/
def u8Q (q : ℚ) : Nat :=
  if q ≤ 0 then 0
  else if 255 ≤ q then 255
  else
    if q - ⌊q⌋ < 1/2 then (⌊q⌋).toNat
    else if 1/2 < q - ⌊q⌋ then (⌊q⌋ + 1).toNat
    else if ⌊q⌋ % 2 = 0 then (⌊q⌋).toNat else (⌊q⌋ + 1).toNat

theorem toInt32_eq_self (n : Int) (h1 : -2147483648 ≤ n) (h2 : n < 2147483648) :
    toInt32 n = n := by
  unfold toInt32; omega

theorem jsTrunc_intCast (n : Int) : jsTrunc (n : ℚ) = n := by
  unfold jsTrunc
  split
  · rw [← Int.cast_neg, Int.floor_intCast]; omega
  · rw [Int.floor_intCast]

theorem qToInt32_intCast (n : Int) : qToInt32 (n : ℚ) = toInt32 n := by
  unfold qToInt32; rw [jsTrunc_intCast]

theorem qToInt32_eq_self (n : Int) (h1 : -2147483648 ≤ n) (h2 : n < 2147483648) :
    qToInt32 (n : ℚ) = n := by
  rw [qToInt32_intCast, toInt32_eq_self n h1 h2]

theorem u8I_eq_toNat (v : Int) (h0 : 0 ≤ v) (h1 : v ≤ 255) : u8I v = v.toNat := by
  unfold u8I; omega

theorem u8Q_intCast (m : Int) (h0 : 0 ≤ m) (h1 : m ≤ 255) : u8Q (m : ℚ) = m.toNat := by
  unfold u8Q
  split
  · rename_i h
    have : m ≤ 0 := by exact_mod_cast h
    omega
  · split
    · rename_i h
      have : (255 : ℚ) ≤ (m : ℚ) := h
      have : (255 : Int) ≤ m := by exact_mod_cast this
      omega
    · rw [Int.floor_intCast, sub_self, if_pos (by norm_num)]

/-! ## Byte buffers (`Uint8ClampedArray` indexing) -/

/-- Read `data[i]`: `undefined` (here `none`) when the index is out of range. -/
def getByte (d : Array Nat) (i : Int) : Option Nat :=
  if 0 ≤ i then d[i.toNat]? else none

/-- Write `data[i] = v` (the value already coerced to a byte): out-of-range
writes are dropped. -/
def setByte (d : Array Nat) (i : Int) (v : Nat) : Array Nat :=
  if 0 ≤ i then d.setD i.toNat v else d

theorem size_setByte (d : Array Nat) (i : Int) (v : Nat) :
    (setByte d i v).size = d.size := by
  unfold setByte
  split <;> simp [Array.size_setD]

theorem getByte_setByte_ne (d : Array Nat) (i j : Int) (v : Nat) (h : j ≠ i) :
    getByte (setByte d i v) j = getByte d j := by
  rcases le_or_lt 0 i with hi | hi
  · rcases le_or_lt 0 j with hj | hj
    · unfold setByte getByte
      rw [if_pos hi, if_pos hj, if_pos hj]
      unfold Array.setD
      split
      · rename_i hlt
        exact Array.getElem?_set_ne d ⟨i.toNat, hlt⟩ v (by omega : i.toNat ≠ j.toNat)
      · rfl
    · unfold getByte
      rw [if_neg (by omega), if_neg (by omega)]
  · have hsb : setByte d i v = d := by
      unfold setByte
      rw [if_neg (by omega)]
    rw [hsb]

theorem getByte_setByte_eq (d : Array Nat) (i : Int) (v : Nat)
    (h0 : 0 ≤ i) (h1 : i.toNat < d.size) :
    getByte (setByte d i v) i = some v := by
  unfold setByte getByte
  rw [if_pos h0, if_pos h0]
  unfold Array.setD
  rw [dif_pos h1, Array.getElem?_set_eq]

/-- Color channel offsets (source constants). -/
def FB_CHANNEL_R : Int := 0

def FB_CHANNEL_G : Int := 1

def FB_CHANNEL_B : Int := 2

def FB_CHANNEL_A : Int := 3

/-- Defer methods (source constants). -/
def FB_DEFER_WRITE_THROUGH : Int := 0

def FB_DEFER_WRITE_BACK : Int := 1

/-- Dimension constraints (source constants). -/
def FB_MAX_WIDTH : Int := 32767

def FB_MAX_HEIGHT : Int := 32767

/-- Origin types (source constants). -/
def FB_ORIGIN_SYSTEM : Nat := 0

def FB_ORIGIN_USER : Nat := 1

/-- The three RGB writes `data[pos + FB_CHANNEL_R] = r` etc. that every
pixel-writing loop of the library performs. -/
def write3 (d : Array Nat) (pos : Int) (v : Nat × Nat × Nat) : Array Nat :=
  setByte (setByte (setByte d (pos + FB_CHANNEL_R) v.1) (pos + FB_CHANNEL_G) v.2.1)
    (pos + FB_CHANNEL_B) v.2.2

/-- Channel selector for the triples written by `write3`. -/
def chan (v : Nat × Nat × Nat) (ch : Nat) : Nat :=
  match ch with
  | 0 => v.1
  | 1 => v.2.1
  | _ => v.2.2

theorem size_write3 (d : Array Nat) (pos : Int) (v : Nat × Nat × Nat) :
    (write3 d pos v).size = d.size := by
  unfold write3
  rw [size_setByte, size_setByte, size_setByte]

theorem getByte_write3_ne (d : Array Nat) (pos : Int) (v : Nat × Nat × Nat) (j : Int)
    (h0 : j ≠ pos + 0) (h1 : j ≠ pos + 1) (h2 : j ≠ pos + 2) :
    getByte (write3 d pos v) j = getByte d j := by
  unfold write3 FB_CHANNEL_R FB_CHANNEL_G FB_CHANNEL_B
  rw [getByte_setByte_ne _ _ _ _ h2, getByte_setByte_ne _ _ _ _ h1,
    getByte_setByte_ne _ _ _ _ h0]

theorem getByte_write3_hit (d : Array Nat) (pos : Int) (v : Nat × Nat × Nat) (ch : Nat)
    (hch : ch < 3) (h0 : 0 ≤ pos) (h1 : (pos + 2).toNat < d.size) :
    getByte (write3 d pos v) (pos + ch) = some (chan v ch) := by
  unfold write3 FB_CHANNEL_R FB_CHANNEL_G FB_CHANNEL_B
  interval_cases ch
  all_goals simp only [Nat.cast_zero, Nat.cast_one, Nat.cast_ofNat, chan]
  · rw [getByte_setByte_ne _ _ _ _ (by omega), getByte_setByte_ne _ _ _ _ (by omega)]
    exact getByte_setByte_eq d (pos + 0) v.1 (by omega) (by omega)
  · rw [getByte_setByte_ne _ _ _ _ (by omega)]
    exact getByte_setByte_eq (setByte d (pos + 0) v.1) (pos + 1) v.2.1 (by omega)
      (by rw [size_setByte]; omega)
  · exact getByte_setByte_eq (setByte (setByte d (pos + 0) v.1) (pos + 1) v.2.1)
      (pos + 2) v.2.2 (by omega) (by rw [size_setByte, size_setByte]; omega)

/-! ## Error definitions (`fb_error_defs`) -/

/-- The identifiers of the built-in error definitions table. -/
inductive FBErrorId where
  | FB_ERR_UNSPECIFIED
  | FB_ERR_BAD_WIDTH
  | FB_ERR_BAD_HEIGHT
  | FB_ERR_LARGE_WIDTH
  | FB_ERR_LARGE_HEIGHT
  | FB_ERR_STUB_FUNCTION
  | FB_ERR_FUNC_BLACKLISTED
  | FB_ERR_BAD_CFG_KEY
  | FB_ERR_BAD_CFG_VALUE
  | FB_ERR_BAD_HOOK_TYPE
  | FB_ERR_HOOK_CALL_FAILED
  | FB_ERR_PATH_NOT_FOUND
  | FB_ERR_FILE_NOT_FOUND
  | FB_ERR_INVALID_FUNCTION
  | FB_ERR_INVALID_ACCESS
  | FB_ERR_INVALID_DATA
  | FB_ERR_USER_GENERATED
  | FB_ERR_UNHANDLED_CASE
  | FB_ERR_RES_LIST_DISABLED
  | FB_ERR_CONVOLUTION_MATRIX_SIZE
  | FB_ERR_BAD_RESOURCE_STRUCTURE
  | FB_ERR_FROM_SYSTEM
  | FB_ERR_CANVAS_NOT_SUPPORTED
deriving DecidableEq

/-- An `FBError` instance.  The `function.name` / `function.arguments` /
`created` bookkeeping fields do not participate in any claim and are not
modeled. -/
structure FBError where
  id : Option FBErrorId
  origin : Nat
deriving DecidableEq

/-- `fb_error` called with a built-in error definition: builds an `FBError`
carrying the id of the definition.  (The optional push onto the `fb_errors`
log does not touch any configuration value or resource.) -/
def fb_error (id : FBErrorId) (origin : Nat) : FBError :=
  { id := some id, origin := origin }

/-! ## Configuration (`fb_config_map`, `fb_canvas_context_attributes`) -/

/-- A JS value as stored in the configuration map: the table only ever holds
numbers, booleans and (through the reserved setter argument) strings.
`Array.includes` uses SameValueZero, so `num 0` and `bool false` are
distinct, exactly as in JS. -/
inductive JSVal where
  | num (n : Int)
  | bool (b : Bool)
  | str (s : String)
deriving DecidableEq

/-- The mutable global state read and written by `fb_config`:
the `value` field of each `fb_config_map` entry, plus the two
`fb_canvas_context_attributes` fields the setters of `alpha` and `desync`
assign. -/
structure ConfigState where
  alpha_value : JSVal
  defer_value : JSVal
  error_log_value : JSVal
  resource_list_value : JSVal
  desync_value : JSVal
  ctx_alpha : JSVal
  ctx_desynchronized : JSVal
deriving DecidableEq

/-- The initial global state, as written in the source literals. -/
def fb_config_initial : ConfigState :=
  { alpha_value := .bool false
    defer_value := .num FB_DEFER_WRITE_BACK
    error_log_value := .num 0
    resource_list_value := .num 0
    desync_value := .num 0
    ctx_alpha := .bool false
    ctx_desynchronized := .bool true }

/-- `fb_config_map_keys` (source list). -/
def fb_config_map_keys : List String :=
  ["alpha", "defer", "error_log", "resource_list", "desync"]

/-- The `allowed` list of each `fb_config_map` entry. -/
def fb_config_allowed : String → List JSVal
  | "alpha" => [.num 0, .num 1, .bool false, .bool true]
  | "defer" => [.num FB_DEFER_WRITE_THROUGH, .num FB_DEFER_WRITE_BACK]
  | "error_log" => [.num 0, .num 1, .bool false, .bool true]
  | "resource_list" => [.num 0, .num 1, .bool false, .bool true]
  | "desync" => [.num 0, .num 1, .bool false, .bool true]
  | _ => []

/-- The `default` field of each `fb_config_map` entry. -/
def fb_config_map_default : String → JSVal
  | "alpha" => .bool false
  | "defer" => .num FB_DEFER_WRITE_BACK
  | "error_log" => .num 0
  | "resource_list" => .num 0
  | "desync" => .num 0
  | _ => .num 0

/-- The current `value` field of a `fb_config_map` entry. -/
def fb_config_value (cfg : ConfigState) : String → JSVal
  | "alpha" => cfg.alpha_value
  | "defer" => cfg.defer_value
  | "error_log" => cfg.error_log_value
  | "resource_list" => cfg.resource_list_value
  | "desync" => cfg.desync_value
  | _ => .num 0

/-- The `_set` private method of a `fb_config_map` entry: stores the value,
and for `alpha` / `desync` also assigns the matching
`fb_canvas_context_attributes` field.  Every entry of the source map has a
`_set` method, so the `else` branches of `fb_config` that assign
`.value` directly are dead code. -/
def fb_config_set (cfg : ConfigState) (key : String) (v : JSVal) : ConfigState :=
  match key with
  | "alpha" => { cfg with alpha_value := v, ctx_alpha := v }
  | "defer" => { cfg with defer_value := v }
  | "error_log" => { cfg with error_log_value := v }
  | "resource_list" => { cfg with resource_list_value := v }
  | "desync" => { cfg with desync_value := v, ctx_desynchronized := v }
  | _ => cfg

/-- Result of an `fb_config` call: `undefined`, an `FBError`, the stored
value of a key (getter form), or the literal `true` (setter success). -/
inductive FBCfgResult where
  | undef
  | err (e : FBError)
  | val (v : JSVal)
  | ok
deriving DecidableEq

/-- `fb_config(key, value)`.  `value = none` is the getter form
(JS `undefined`). -/
def fb_config (cfg : ConfigState) (key : Option String) (value : Option JSVal) :
    FBCfgResult × ConfigState :=
  match key with
  | none => (.undef, cfg)
  | some key =>
    if key ∈ fb_config_map_keys then
      match value with
      | none => (.val (fb_config_value cfg key), cfg)
      | some v =>
        if v = .str "<default>" then
          (.ok, fb_config_set cfg key (fb_config_map_default key))
        else if v ∈ fb_config_allowed key then
          (.ok, fb_config_set cfg key v)
        else
          (.err (fb_error .FB_ERR_BAD_CFG_VALUE FB_ORIGIN_SYSTEM), cfg)
    else
      (.err (fb_error .FB_ERR_BAD_CFG_KEY FB_ORIGIN_SYSTEM), cfg)

/-! ## Framebuffer resources -/

/-- A Framebuffer Resource.  `data` is `resource.image.data`; `canvas` is the
byte content of the display surface (what `putImageData` copies `data`
onto).  The `context` handle itself carries no observable state beyond
`canvas`. -/
structure FBResource where
  width : Int
  height : Int
  data : Array Nat
  canvas : Array Nat
  created : Nat
  updated : Nat
  loaded : Bool
  locked : Bool
  dirty : Int
  defer : JSVal
  error : Option FBError
deriving DecidableEq

/-- `fb_valid`: the null test plus `instanceof FBResource` plus presence of
twelve fields, the latter two guaranteed by the structure type. -/
def fb_valid : Option FBResource → Bool
  | none => false
  | some _ => true

/-- `fb_create(width, height)`.  `cfg` is the global configuration at call
time (read for the `defer` bit), `now` is `Date.now()`. -/
def fb_create (cfg : ConfigState) (now : Nat) (width0 height0 : Int) : FBResource :=
  let width := toInt32 width0
  let height := toInt32 height0
  let resource : FBResource :=
    { width := width, height := height, data := #[], canvas := #[]
      created := now, updated := 0, loaded := true, locked := false
      dirty := 0, defer := cfg.defer_value, error := none }
  if 0 ≥ width then
    { resource with error := some (fb_error .FB_ERR_BAD_WIDTH FB_ORIGIN_SYSTEM) }
  else if 0 ≥ height then
    { resource with error := some (fb_error .FB_ERR_BAD_HEIGHT FB_ORIGIN_SYSTEM) }
  else if width > FB_MAX_WIDTH then
    { resource with error := some (fb_error .FB_ERR_LARGE_WIDTH FB_ORIGIN_SYSTEM) }
  else if height > FB_MAX_HEIGHT then
    { resource with error := some (fb_error .FB_ERR_LARGE_HEIGHT FB_ORIGIN_SYSTEM) }
  else
    -- new ImageData(width, height) followed by .fill(255), then putImageData
    let d := Array.mkArray (width * height * 4).toNat 255
    { resource with data := d, canvas := d }

/-- `fb_update`: reset the dirty bit and stamp `updated`. -/
def fb_update (resource : Option FBResource) (now : Nat) : Bool × Option FBResource :=
  match resource with
  | none => (false, none)
  | some res => (true, some { res with dirty := 0, updated := now })

/-- `fb_sync` for a single resource argument: `putImageData` then
`fb_update`; returns the number of valid resources synchronized. -/
def fb_sync (resource : Option FBResource) (now : Nat) : Nat × Option FBResource :=
  match resource with
  | none => (0, none)
  | some res =>
    let res := { res with canvas := res.data }
    (1, (fb_update (some res) now).2)

/-- `fb_defer`: synchronize now when the resource uses write-through. -/
def fb_defer (resource : Option FBResource) (now : Nat) : Option FBResource :=
  match resource with
  | none => none
  | some res =>
    if res.defer = JSVal.num FB_DEFER_WRITE_THROUGH then (fb_sync (some res) now).2
    else some res

/-- Body of `fb_set_pixel` after the validity test (the resource stays
non-null for the callers that loop over it). -/
def fb_set_pixel_core (res : FBResource) (x y : ℚ) (r g b : Int) : FBResource :=
  if res.locked then res
  else
    let xi := qToInt32 x
    let yi := qToInt32 y
    let pos := res.width * yi * 4 + xi * 4
    { res with
      data := write3 res.data pos (u8I r, u8I g, u8I b)
      dirty := 1 }

/-- `fb_set_pixel(resource, x, y, r, g, b)`. -/
def fb_set_pixel (resource : Option FBResource) (x y : ℚ) (r g b : Int) :
    Option FBResource :=
  match resource with
  | none => none
  | some res => some (fb_set_pixel_core res x y r g b)

/-- Body of `fb_get_pixel` after the validity test. -/
def fb_get_pixel_core (res : FBResource) (x y : ℚ) :
    Option Nat × Option Nat × Option Nat :=
  let xi := qToInt32 x
  let yi := qToInt32 y
  let pos := res.width * yi * 4 + xi * 4
  (getByte res.data (pos + FB_CHANNEL_R),
   getByte res.data (pos + FB_CHANNEL_G),
   getByte res.data (pos + FB_CHANNEL_B))

/-- `fb_get_pixel(resource, x, y)`: `undefined` on an invalid resource,
otherwise the `[r, g, b]` triple (entries `undefined` when out of range). -/
def fb_get_pixel (resource : Option FBResource) (x y : ℚ) :
    Option (Option Nat × Option Nat × Option Nat) :=
  match resource with
  | none => none
  | some res => some (fb_get_pixel_core res x y)

/-- `fb_lock`. -/
def fb_lock (resource : Option FBResource) : Bool × Option FBResource :=
  match resource with
  | none => (false, none)
  | some res => (true, some { res with locked := true })

/-- `fb_unlock`. -/
def fb_unlock (resource : Option FBResource) : Bool × Option FBResource :=
  match resource with
  | none => (false, none)
  | some res => (true, some { res with locked := false })

/-- The integers `a, a+1, ..., b-1` (the values a `for (v = a; v < b; v++)`
loop visits). -/
def intRange (a b : Int) : List Int :=
  (List.range (b - a).toNat).map (fun i : Nat => a + (i : Int))

/-- The indices `0, 4, 8, ...` below `n` that a
`for (i = 0; i < n; i += 4)` loop visits. -/
def stride4 (n : Nat) : List Int :=
  (List.range ((n + 3) / 4)).map (fun k : Nat => ((4 * k : Nat) : Int))

/-- `fb_clear(resource, r, g, b)`: write `r, g, b` into every pixel of the
buffer (the alpha bytes and the dirty bit are not touched), then defer. -/
def fb_clear (resource : Option FBResource) (r g b : Int) (now : Nat) :
    Bool × Option FBResource :=
  match resource with
  | none => (false, none)
  | some res =>
    let d := (stride4 res.data.size).foldl
      (fun d i => write3 d i (u8I r, u8I g, u8I b)) res.data
    (true, fb_defer (some { res with data := d }) now)

/-- `fb_rect(resource, x, y, w, h, r, g, b, fill)`.  Only the `fill` branch
writes pixels here; the outline branch draws four `fb_line`s (not modeled,
see the header comment) and is treated as not changing the buffer. -/
def fb_rect (resource : Option FBResource) (x y w h : Int) (r g b : Int)
    (fill : Bool) (now : Nat) : Bool × Option FBResource :=
  match resource with
  | none => (false, none)
  | some res0 =>
    if fill then
      let res := (intRange y (h + y)).foldl (fun cur (y2 : Int) =>
        (intRange x (w + x)).foldl (fun cur (x2 : Int) =>
          if cur.width > x2 ∧ cur.height > y2 then
            fb_set_pixel_core cur (x2 : ℚ) (y2 : ℚ) r g b
          else cur) cur) res0
      (true, fb_defer (some res) now)
    else
      (true, fb_defer (some res0) now)

/-- The byte a JS read that may be `undefined` stores through a
`Uint8ClampedArray` assignment: `undefined` arithmetic would be `NaN`,
which clamps to `0`; a defined byte stores unchanged. -/
def u8Read : Option Nat → Nat
  | none => 0
  | some v => min 255 v

/-- `fb_copy(resource, cri, cgi, cbi)`: a fresh `fb_create` of the same
dimensions, the RGB channels copied from the chosen source channel indices,
then `putImageData` and `fb_defer`. -/
def fb_copy (cfg : ConfigState) (now : Nat) (resource : Option FBResource)
    (cri cgi cbi : Int) : Option FBResource :=
  match resource with
  | none => none
  | some res =>
    let copy := fb_create cfg now res.width res.height
    let d := (stride4 res.data.size).foldl
      (fun d i =>
        write3 d i
          (u8Read (getByte res.data (i + cri)),
           u8Read (getByte res.data (i + cgi)),
           u8Read (getByte res.data (i + cbi)))) copy.data
    let copy := { copy with data := d, canvas := d }
    fb_defer (some copy) now

/-! ## Flood fill (`fb_fill`) -/

/-- JS loose equality between a possibly-`undefined` byte read and a number:
`undefined == r` is false for every number `r`. -/
def jsEqNum (o : Option Nat) (v : Int) : Prop :=
  match o with
  | some n => (n : Int) = v
  | none => False

instance (o : Option Nat) (v : Int) : Decidable (jsEqNum o v) := by
  unfold jsEqNum
  cases o <;> infer_instance

/-- The `while (fill_stack.length > 0)` loop of `fb_fill`.  The JS stack is
LIFO (`push`/`pop` at the end); here the head of the list is the element the
next `pop` removes, so the four pushes appear in reverse order.  The loop is
not structurally terminating, so it runs on explicit `fuel`; `none` means
the fuel ran out before the stack emptied (never the case in the concrete
evaluations below). -/
def fb_fill_loop (res : FBResource) (bg : Option Nat × Option Nat × Option Nat)
    (r g b : Int) : List (Int × Int) → Nat → Option FBResource
  | _, 0 => none
  | [], _ + 1 => some res
  | (x, y) :: rest, fuel + 1 =>
    let color := fb_get_pixel_core res (x : ℚ) (y : ℚ)
    if 0 > x ∨ x > res.width ∨ 0 > y ∨ y > res.height then
      fb_fill_loop res bg r g b rest fuel
    else if color.1 ≠ bg.1 ∨ color.2.1 ≠ bg.2.1 ∨ color.2.2 ≠ bg.2.2 then
      fb_fill_loop res bg r g b rest fuel
    else
      fb_fill_loop (fb_set_pixel_core res (x : ℚ) (y : ℚ) r g b) bg r g b
        ((x, y - 1) :: (x, y + 1) :: (x - 1, y) :: (x + 1, y) :: rest) fuel

/-- `fb_fill(resource, x, y, r, g, b)` with the default callback
(`fb_set_pixel`).  Result `some (ret, resource)` mirrors the JS boolean
return; `none` is fuel exhaustion. -/
def fb_fill (resource : Option FBResource) (x y : Int) (r g b : Int)
    (now : Nat) (fuel : Nat) : Option (Bool × Option FBResource) :=
  match resource with
  | none => some (false, none)
  | some res =>
    let bg_color := fb_get_pixel_core res (x : ℚ) (y : ℚ)
    if jsEqNum bg_color.1 r ∧ jsEqNum bg_color.2.1 g ∧ jsEqNum bg_color.2.2 b then
      some (false, some res)
    else
      match fb_fill_loop res bg_color r g b [(x, y)] fuel with
      | none => none
      | some res => some (true, fb_defer (some res) now)

/-! ## Convolution (`fb_convolution_matrix`) -/

/-- The fragment of IEEE binary64 the convolution arithmetic can reach from
byte reads and integer weights: finite rationals, the two infinities (from a
zero divisor) and `NaN` (from an `undefined` out-of-bounds read, or `0/0`). -/
inductive JSNum where
  | nan
  | pinf
  | ninf
  | fin (q : ℚ)
deriving DecidableEq

/-- A channel read entering arithmetic: `undefined` becomes `NaN`. -/
def JSNum.ofChannel : Option Nat → JSNum
  | none => .nan
  | some v => .fin v

/-- `a * k` for an integer kernel weight `k`. -/
def JSNum.mulInt : JSNum → Int → JSNum
  | .nan, _ => .nan
  | .pinf, k => if 0 < k then .pinf else if k < 0 then .ninf else .nan
  | .ninf, k => if 0 < k then .ninf else if k < 0 then .pinf else .nan
  | .fin q, k => .fin (q * k)

/-- IEEE addition on the reachable fragment. -/
def JSNum.add : JSNum → JSNum → JSNum
  | .nan, _ => .nan
  | _, .nan => .nan
  | .pinf, .ninf => .nan
  | .ninf, .pinf => .nan
  | .pinf, _ => .pinf
  | _, .pinf => .pinf
  | .ninf, _ => .ninf
  | _, .ninf => .ninf
  | .fin a, .fin b => .fin (a + b)

/-- `a / d` for an integer divisor `d` (division by zero produces an
infinity or, for `0 / 0`, `NaN`). -/
def JSNum.divInt : JSNum → Int → JSNum
  | .nan, _ => .nan
  | .pinf, k => if k < 0 then .ninf else .pinf
  | .ninf, k => if k < 0 then .pinf else .ninf
  | .fin q, k =>
    if k = 0 then
      if 0 < q then .pinf else if q < 0 then .ninf else .nan
    else .fin (q / k)

/-- `a + k` for an integer offset `k`. -/
def JSNum.addInt (a : JSNum) (k : Int) : JSNum := a.add (.fin k)

/-- `ToUint8Clamp` on the reachable fragment. -/
def u8J : JSNum → Nat
  | .nan => 0
  | .pinf => 255
  | .ninf => 0
  | .fin q => u8Q q

/-- One output channel of the convolution: the nine (or twenty-five)
products `channel * weight`, summed left to right, divided by `divisor`,
plus `offset`, stored through the `Uint8ClampedArray`. -/
def convChannel (chs : List (Option Nat)) (weights : List Int)
    (divisor offset : Int) : Nat :=
  let terms := List.zipWith (fun ch k => (JSNum.ofChannel ch).mulInt k) chs weights
  let avg := (terms.foldl JSNum.add (.fin 0)).divInt divisor
  u8J (avg.addInt offset)

/-- The RGB triple the 3x3 branch writes at `(x, y)`: the nine neighborhood
reads `a0 .. c2` of the source, in source order. -/
def conv3_write (res : FBResource) (cm : List Int) (divisor offset : Int)
    (x y : Int) : Nat × Nat × Nat :=
  let a0 := fb_get_pixel_core res ((x : ℚ) - 1) ((y : ℚ) - 1)
  let a1 := fb_get_pixel_core res (x : ℚ) ((y : ℚ) - 1)
  let a2 := fb_get_pixel_core res ((x : ℚ) + 1) ((y : ℚ) - 1)
  let b0 := fb_get_pixel_core res ((x : ℚ) - 1) (y : ℚ)
  let b1 := fb_get_pixel_core res (x : ℚ) (y : ℚ)
  let b2 := fb_get_pixel_core res ((x : ℚ) + 1) (y : ℚ)
  let c0 := fb_get_pixel_core res ((x : ℚ) - 1) ((y : ℚ) + 1)
  let c1 := fb_get_pixel_core res (x : ℚ) ((y : ℚ) + 1)
  let c2 := fb_get_pixel_core res ((x : ℚ) + 1) ((y : ℚ) + 1)
  let ws := [cm.getD 0 0, cm.getD 1 0, cm.getD 2 0, cm.getD 3 0, cm.getD 4 0,
             cm.getD 5 0, cm.getD 6 0, cm.getD 7 0, cm.getD 8 0]
  (convChannel [a0.1, a1.1, a2.1, b0.1, b1.1, b2.1, c0.1, c1.1, c2.1] ws divisor offset,
   convChannel [a0.2.1, a1.2.1, a2.2.1, b0.2.1, b1.2.1, b2.2.1, c0.2.1, c1.2.1, c2.2.1]
     ws divisor offset,
   convChannel [a0.2.2, a1.2.2, a2.2.2, b0.2.2, b1.2.2, b2.2.2, c0.2.2, c1.2.2, c2.2.2]
     ws divisor offset)

/-- The RGB triple the 5x5 branch writes at `(x, y)`: the twenty-five
neighborhood reads `a0 .. e4` of the source, in source order. -/
def conv5_write (res : FBResource) (cm : List Int) (divisor offset : Int)
    (x y : Int) : Nat × Nat × Nat :=
  let a0 := fb_get_pixel_core res ((x : ℚ) - 2) ((y : ℚ) - 2)
  let a1 := fb_get_pixel_core res ((x : ℚ) - 1) ((y : ℚ) - 2)
  let a2 := fb_get_pixel_core res (x : ℚ) ((y : ℚ) - 2)
  let a3 := fb_get_pixel_core res ((x : ℚ) + 1) ((y : ℚ) - 2)
  let a4 := fb_get_pixel_core res ((x : ℚ) + 2) ((y : ℚ) - 2)
  let b0 := fb_get_pixel_core res ((x : ℚ) - 2) ((y : ℚ) - 1)
  let b1 := fb_get_pixel_core res ((x : ℚ) - 1) ((y : ℚ) - 1)
  let b2 := fb_get_pixel_core res (x : ℚ) ((y : ℚ) - 1)
  let b3 := fb_get_pixel_core res ((x : ℚ) + 1) ((y : ℚ) - 1)
  let b4 := fb_get_pixel_core res ((x : ℚ) + 2) ((y : ℚ) - 1)
  let c0 := fb_get_pixel_core res ((x : ℚ) - 2) (y : ℚ)
  let c1 := fb_get_pixel_core res ((x : ℚ) - 1) (y : ℚ)
  let c2 := fb_get_pixel_core res (x : ℚ) (y : ℚ)
  let c3 := fb_get_pixel_core res ((x : ℚ) + 1) (y : ℚ)
  let c4 := fb_get_pixel_core res ((x : ℚ) + 2) (y : ℚ)
  let d0 := fb_get_pixel_core res ((x : ℚ) - 2) ((y : ℚ) + 1)
  let d1 := fb_get_pixel_core res ((x : ℚ) - 1) ((y : ℚ) + 1)
  let d2 := fb_get_pixel_core res (x : ℚ) ((y : ℚ) + 1)
  let d3 := fb_get_pixel_core res ((x : ℚ) + 1) ((y : ℚ) + 1)
  let d4 := fb_get_pixel_core res ((x : ℚ) + 2) ((y : ℚ) + 1)
  let e0 := fb_get_pixel_core res ((x : ℚ) - 2) ((y : ℚ) + 2)
  let e1 := fb_get_pixel_core res ((x : ℚ) - 1) ((y : ℚ) + 2)
  let e2 := fb_get_pixel_core res (x : ℚ) ((y : ℚ) + 2)
  let e3 := fb_get_pixel_core res ((x : ℚ) + 1) ((y : ℚ) + 2)
  let e4 := fb_get_pixel_core res ((x : ℚ) + 2) ((y : ℚ) + 2)
  let ws := [cm.getD 0 0, cm.getD 1 0, cm.getD 2 0, cm.getD 3 0, cm.getD 4 0,
             cm.getD 5 0, cm.getD 6 0, cm.getD 7 0, cm.getD 8 0, cm.getD 9 0,
             cm.getD 10 0, cm.getD 11 0, cm.getD 12 0, cm.getD 13 0, cm.getD 14 0,
             cm.getD 15 0, cm.getD 16 0, cm.getD 17 0, cm.getD 18 0, cm.getD 19 0,
             cm.getD 20 0, cm.getD 21 0, cm.getD 22 0, cm.getD 23 0, cm.getD 24 0]
  (convChannel [a0.1, a1.1, a2.1, a3.1, a4.1, b0.1, b1.1, b2.1, b3.1, b4.1,
                c0.1, c1.1, c2.1, c3.1, c4.1, d0.1, d1.1, d2.1, d3.1, d4.1,
                e0.1, e1.1, e2.1, e3.1, e4.1] ws divisor offset,
   convChannel [a0.2.1, a1.2.1, a2.2.1, a3.2.1, a4.2.1, b0.2.1, b1.2.1, b2.2.1, b3.2.1,
                b4.2.1, c0.2.1, c1.2.1, c2.2.1, c3.2.1, c4.2.1, d0.2.1, d1.2.1, d2.2.1,
                d3.2.1, d4.2.1, e0.2.1, e1.2.1, e2.2.1, e3.2.1, e4.2.1] ws divisor offset,
   convChannel [a0.2.2, a1.2.2, a2.2.2, a3.2.2, a4.2.2, b0.2.2, b1.2.2, b2.2.2, b3.2.2,
                b4.2.2, c0.2.2, c1.2.2, c2.2.2, c3.2.2, c4.2.2, d0.2.2, d1.2.2, d2.2.2,
                d3.2.2, d4.2.2, e0.2.2, e1.2.2, e2.2.2, e3.2.2, e4.2.2] ws divisor offset)

/-- Result of `fb_convolution_matrix`: `null`, an `FBError`, or a resource. -/
inductive FBResult where
  | nullv
  | err (e : FBError)
  | res (r : FBResource)
deriving DecidableEq

/-- The 3x3 loop of `fb_convolution_matrix` (outer `x`, inner `y`), writing
into the buffer of the copied resource. -/
def conv_fold3 (res : FBResource) (matrix : List Int) (divisor offset : Int)
    (d : Array Nat) : Array Nat :=
  (intRange 0 res.width).foldl (fun d (x : Int) =>
    (intRange 0 res.height).foldl (fun d (y : Int) =>
      let pos := res.width * y * 4 + x * 4
      write3 d pos (conv3_write res matrix divisor offset x y)) d) d

/-- The 5x5 loop of `fb_convolution_matrix`. -/
def conv_fold5 (res : FBResource) (matrix : List Int) (divisor offset : Int)
    (d : Array Nat) : Array Nat :=
  (intRange 0 res.width).foldl (fun d (x : Int) =>
    (intRange 0 res.height).foldl (fun d (y : Int) =>
      let pos := res.width * y * 4 + x * 4
      write3 d pos (conv5_write res matrix divisor offset x y)) d) d

/-- `fb_convolution_matrix(resource, matrix, divisor, offset)`. -/
def fb_convolution_matrix (cfg : ConfigState) (now : Nat)
    (resource : Option FBResource) (matrix : List Int) (divisor offset : Int) :
    FBResult :=
  match resource with
  | none => .nullv
  | some res =>
    if matrix.length ≠ 9 ∧ matrix.length ≠ 25 then
      .err (fb_error .FB_ERR_CONVOLUTION_MATRIX_SIZE FB_ORIGIN_SYSTEM)
    else
      match fb_copy cfg now (some res) 0 1 2 with
      | none => .nullv
      | some rnew =>
        let d :=
          if matrix.length = 9 then conv_fold3 res matrix divisor offset rnew.data
          else rnew.data
        let d :=
          if matrix.length = 25 then conv_fold5 res matrix divisor offset d
          else d
        match fb_defer (some { rnew with data := d }) now with
        | none => .nullv
        | some r2 => .res r2

/-! ## Resize (`fb_resize`) -/

/-- The byte value stored when a possibly-`undefined` channel read is passed
back into `fb_set_pixel` (an `undefined` read would store `NaN`, which the
`Uint8ClampedArray` clamps to 0). -/
def chInt : Option Nat → Int
  | none => 0
  | some v => v

/-- `fb_resize(resource, w, h)` without the `restore` tail call. -/
def fb_resize_main (cfg : ConfigState) (now : Nat) (resource : Option FBResource)
    (w0 h0 : Int) : Option FBResource :=
  match resource with
  | none => none
  | some res =>
    let w := toInt32 w0
    let h := toInt32 h0
    -- the source condition reads
    -- `w == 0 || w == resource.width && h == 0 || h == resource.height`
    if w = 0 ∨ (w = res.width ∧ h = 0) ∨ h = res.height then resource
    else
      let resource_new := fb_create cfg now w h
      let xd : ℚ := (res.width : ℚ) / (w : ℚ)
      let yd : ℚ := (res.height : ℚ) / (h : ℚ)
      let resource_new := (intRange 0 w).foldl (fun rn (x : Int) =>
        (intRange 0 h).foldl (fun rn (y : Int) =>
          let c := fb_get_pixel_core res (xd * (x : ℚ)) (yd * (y : ℚ))
          -- the two inner loops `for (i = 0; i < xd; i += xd)` each run
          -- exactly once (with i = 0) when the step is positive
          if 0 < xd ∧ 0 < yd then
            fb_set_pixel_core rn (x : ℚ) (y : ℚ) (chInt c.1) (chInt c.2.1) (chInt c.2.2)
          else rn) rn) resource_new
      (fb_sync (some resource_new) now).2

/-- `fb_resize(resource, w, h, restore)`: the `restore` branch resizes the
result back to the original dimensions (a tail call with `restore = false`). -/
def fb_resize (cfg : ConfigState) (now : Nat) (resource : Option FBResource)
    (w0 h0 : Int) (restore : Bool) : Option FBResource :=
  if restore then
    match resource with
    | none => none
    | some res =>
      fb_resize_main cfg now (fb_resize_main cfg now resource w0 h0) res.width res.height
  else
    fb_resize_main cfg now resource w0 h0

/-! ## Well-formedness and loop characterization machinery -/

/-- A resource as produced by a successful `fb_create` (and preserved by the
pixel operations): positive in-range dimensions and a pixel buffer of
`width * height * 4` bytes. -/
def WF (r : FBResource) : Prop :=
  0 < r.width ∧ r.width ≤ FB_MAX_WIDTH ∧ 0 < r.height ∧ r.height ≤ FB_MAX_HEIGHT ∧
    r.data.size = (r.width * r.height * 4).toNat

instance (r : FBResource) : Decidable (WF r) := by
  unfold WF; infer_instance

/-- All alpha bytes (index congruent to 3 mod 4) of a buffer are 255. -/
def alphaArr (d : Array Nat) : Prop :=
  ∀ i, ∀ _ : i < d.size, i % 4 = 3 → d[i] = 255

instance (d : Array Nat) : Decidable (alphaArr d) := by
  unfold alphaArr; infer_instance

/-- All alpha bytes of the pixel buffer of a resource are 255. -/
def alphaAll (r : FBResource) : Prop := alphaArr r.data

instance (r : FBResource) : Decidable (alphaAll r) := by
  unfold alphaAll; infer_instance

theorem getByte_eq_getElem (d : Array Nat) (i : Nat) (h : i < d.size) :
    getByte d (i : Int) = some (d[i]) := by
  unfold getByte
  rw [if_pos (by omega)]
  simp only [Int.toNat_natCast]
  exact Array.getElem?_eq_getElem h

/-- A fold writing one RGB triple per list element, at a position and with
values depending only on the element.  Every pixel loop of the library has
this shape once flattened. -/
def foldWrite3 {α : Type} (posOf : α → Int) (vals : α → Nat × Nat × Nat)
    (L : List α) (d : Array Nat) : Array Nat :=
  L.foldl (fun d a => write3 d (posOf a) (vals a)) d

theorem foldWrite3_nil {α : Type} (posOf : α → Int) (vals : α → Nat × Nat × Nat)
    (d : Array Nat) : foldWrite3 posOf vals [] d = d := rfl

theorem foldWrite3_cons {α : Type} (posOf : α → Int) (vals : α → Nat × Nat × Nat)
    (c : α) (rest : List α) (d : Array Nat) :
    foldWrite3 posOf vals (c :: rest) d
      = foldWrite3 posOf vals rest (write3 d (posOf c) (vals c)) := rfl

theorem size_foldWrite3 {α : Type} (posOf : α → Int) (vals : α → Nat × Nat × Nat) :
    ∀ (L : List α) (d : Array Nat), (foldWrite3 posOf vals L d).size = d.size := by
  intro L
  induction L with
  | nil => intro d; rfl
  | cons c rest ih =>
    intro d
    rw [foldWrite3_cons, ih, size_write3]

theorem getByte_foldWrite3_ne {α : Type} (posOf : α → Int) (vals : α → Nat × Nat × Nat) :
    ∀ (L : List α) (d : Array Nat) (j : Int),
      (∀ a ∈ L, j ≠ posOf a + 0 ∧ j ≠ posOf a + 1 ∧ j ≠ posOf a + 2) →
      getByte (foldWrite3 posOf vals L d) j = getByte d j := by
  intro L
  induction L with
  | nil => intro d j _; rfl
  | cons c rest ih =>
    intro d j hj
    rw [foldWrite3_cons]
    have hc := hj c (by simp)
    rw [ih _ _ (fun a ha => hj a (by simp [ha]))]
    exact getByte_write3_ne d (posOf c) (vals c) j hc.1 hc.2.1 hc.2.2

theorem getByte_foldWrite3_hit {α : Type} (posOf : α → Int) (vals : α → Nat × Nat × Nat) :
    ∀ (L : List α) (d : Array Nat) (P : Int) (V : Nat × Nat × Nat),
      (∀ a ∈ L, posOf a % 4 = 0) →
      (∀ a ∈ L, posOf a = P → vals a = V) →
      (∃ a ∈ L, posOf a = P) →
      0 ≤ P → (P + 2).toNat < d.size →
      ∀ ch : Nat, ch < 3 →
        getByte (foldWrite3 posOf vals L d) ((P + ch : Int)) = some (chan V ch) := by
  intro L
  induction L with
  | nil =>
    intro d P V _ _ hex _ _ _ _
    simp at hex
  | cons c rest ih =>
    intro d P V hmod hsame hex hP0 hPsz ch hch
    rw [foldWrite3_cons]
    by_cases hrest : ∃ a ∈ rest, posOf a = P
    · exact ih (write3 d (posOf c) (vals c)) P V
        (fun a ha => hmod a (by simp [ha]))
        (fun a ha => hsame a (by simp [ha]))
        hrest hP0 (by rw [size_write3]; exact hPsz) ch hch
    · have hcP : posOf c = P := by
        obtain ⟨a, ha, haP⟩ := hex
        rcases List.mem_cons.mp ha with rfl | hmem
        · exact haP
        · exact absurd ⟨a, hmem, haP⟩ hrest
      have hcV : vals c = V := hsame c (by simp) hcP
      rw [getByte_foldWrite3_ne posOf vals rest _ _ ?hdisj]
      · rw [← hcP, ← hcV]
        exact getByte_write3_hit d (posOf c) (vals c) ch hch (hcP ▸ hP0)
          (hcP ▸ hPsz)
      case hdisj =>
        intro a ha
        have hane : posOf a ≠ P := fun heq => hrest ⟨a, ha, heq⟩
        have hamod : posOf a % 4 = 0 := hmod a (by simp [ha])
        have hPmod : P % 4 = 0 := hcP ▸ hmod c (by simp)
        refine ⟨?_, ?_, ?_⟩ <;> omega

/-- Flattening a doubly nested `for` loop into a single fold over the pair
list it visits. -/
theorem foldl_nested {α₁ α₂ γ β : Type} (f : β → γ → β) (g : α₁ → α₂ → γ) :
    ∀ (outer : List α₁) (inner : List α₂) (init : β),
      outer.foldl (fun acc a => inner.foldl (fun acc b => f acc (g a b)) acc) init
        = (outer.flatMap (fun a => inner.map (g a))).foldl f init := by
  intro outer
  induction outer with
  | nil => intro inner init; rfl
  | cons c rest ih =>
    intro inner init
    rw [List.foldl_cons, List.flatMap_cons, List.foldl_append, ← ih, List.foldl_map]

theorem mem_intRange {a b n : Int} : n ∈ intRange a b ↔ a ≤ n ∧ n < b := by
  unfold intRange
  rw [List.mem_map]
  constructor
  · rintro ⟨i, hi, hin⟩
    rw [List.mem_range] at hi
    omega
  · rintro ⟨h1, h2⟩
    refine ⟨(n - a).toNat, ?_, ?_⟩
    · rw [List.mem_range]; omega
    · omega

theorem mem_stride4 {n : Nat} {i : Int} :
    i ∈ stride4 n ↔ 0 ≤ i ∧ i % 4 = 0 ∧ i < (n : Int) := by
  unfold stride4
  rw [List.mem_map]
  constructor
  · rintro ⟨k, hk, hik⟩
    rw [List.mem_range] at hk
    omega
  · rintro ⟨h0, h4, hn⟩
    refine ⟨i.toNat / 4, ?_, ?_⟩
    · rw [List.mem_range]; omega
    · omega

theorem pixel_window_bound (w h x y ch : Int) (hw : 0 < w)
    (hx : 0 ≤ x) (hx2 : x < w) (hy : 0 ≤ y) (hy2 : y < h)
    (hch0 : 0 ≤ ch) (hch : ch ≤ 3) :
    0 ≤ w * y * 4 + x * 4 + ch ∧ w * y * 4 + x * 4 + ch < w * h * 4 := by
  have h1 : w * y ≤ w * (h - 1) := by
    apply mul_le_mul_of_nonneg_left (by omega) (by omega)
  have h2 : w * (h - 1) = w * h - w := by ring
  have h3 : 0 ≤ w * y := mul_nonneg (by omega) hy
  omega

theorem pixelIndex_inj (w x y x2 y2 : Int) (hw : 0 < w)
    (hx : 0 ≤ x) (hx2 : x < w) (hx' : 0 ≤ x2) (hx2' : x2 < w)
    (heq : w * y * 4 + x * 4 = w * y2 * 4 + x2 * 4) : x = x2 ∧ y = y2 := by
  have hm : x + w * y = x2 + w * y2 := by omega
  have e1 : (x + w * y) % w = x % w := Int.add_mul_emod_self_left x w y
  have e2 : (x2 + w * y2) % w = x2 % w := Int.add_mul_emod_self_left x2 w y2
  rw [hm] at e1
  have hx0 : x % w = x := Int.emod_eq_of_lt hx hx2
  have hx20 : x2 % w = x2 := Int.emod_eq_of_lt hx' hx2'
  have hxx : x = x2 := by
    have h := e1.symm.trans e2
    rw [hx0, hx20] at h
    exact h
  constructor
  · exact hxx
  · have hy : w * y = w * y2 := by omega
    have hwne : w ≠ 0 := by omega
    exact mul_left_cancel₀ hwne hy

/-- Generic preservation of a predicate along a fold. -/
theorem foldl_preserve {β α : Type} (P : β → Prop) (f : β → α → β)
    (hf : ∀ b a, P b → P (f b a)) :
    ∀ (L : List α) (b : β), P b → P (L.foldl f b) := by
  intro L
  induction L with
  | nil => intro b hb; exact hb
  | cons c rest ih =>
    intro b hb
    rw [List.foldl_cons]
    exact ih _ (hf b c hb)

/-! ## Behavior of the basic operations -/

theorem fb_set_pixel_core_locked (res : FBResource) (x y : ℚ) (r g b : Int)
    (h : res.locked = true) : fb_set_pixel_core res x y r g b = res := by
  unfold fb_set_pixel_core
  rw [if_pos h]

theorem fb_set_pixel_core_unlocked (res : FBResource) (x y : ℚ) (r g b : Int)
    (h : res.locked = false) :
    fb_set_pixel_core res x y r g b =
      { res with
        data := write3 res.data (res.width * qToInt32 y * 4 + qToInt32 x * 4)
          (u8I r, u8I g, u8I b)
        dirty := 1 } := by
  unfold fb_set_pixel_core
  rw [if_neg (by rw [h]; exact Bool.false_ne_true)]

theorem fb_set_pixel_core_width (res : FBResource) (x y : ℚ) (r g b : Int) :
    (fb_set_pixel_core res x y r g b).width = res.width := by
  unfold fb_set_pixel_core; split <;> rfl

theorem fb_set_pixel_core_height (res : FBResource) (x y : ℚ) (r g b : Int) :
    (fb_set_pixel_core res x y r g b).height = res.height := by
  unfold fb_set_pixel_core; split <;> rfl

theorem fb_set_pixel_core_locked_eq (res : FBResource) (x y : ℚ) (r g b : Int) :
    (fb_set_pixel_core res x y r g b).locked = res.locked := by
  unfold fb_set_pixel_core; split <;> rfl

theorem fb_set_pixel_core_canvas (res : FBResource) (x y : ℚ) (r g b : Int) :
    (fb_set_pixel_core res x y r g b).canvas = res.canvas := by
  unfold fb_set_pixel_core; split <;> rfl

theorem fb_set_pixel_core_defer (res : FBResource) (x y : ℚ) (r g b : Int) :
    (fb_set_pixel_core res x y r g b).defer = res.defer := by
  unfold fb_set_pixel_core; split <;> rfl

theorem fb_set_pixel_core_size (res : FBResource) (x y : ℚ) (r g b : Int) :
    (fb_set_pixel_core res x y r g b).data.size = res.data.size := by
  unfold fb_set_pixel_core
  split
  · rfl
  · exact size_write3 _ _ _

/-- The alpha bytes survive every `fb_set_pixel` call, at arbitrary
coordinates: the write window starts at a multiple of 4. -/
theorem alphaArr_write3 (d : Array Nat) (pos : Int) (v : Nat × Nat × Nat)
    (hpos : pos % 4 = 0) (h : alphaArr d) : alphaArr (write3 d pos v) := by
  intro i hi h3
  have hi' : i < d.size := by rw [← size_write3 d pos v]; exact hi
  have hget : getByte (write3 d pos v) (i : Int) = getByte d (i : Int) := by
    apply getByte_write3_ne
    all_goals omega
  have h1 : getByte (write3 d pos v) (i : Int) = some ((write3 d pos v)[i]) :=
    getByte_eq_getElem _ i hi
  have h2 : getByte d (i : Int) = some (d[i]) := getByte_eq_getElem d i hi'
  rw [h1, h2] at hget
  rw [Option.some_inj.mp hget]
  exact h i hi' h3

theorem alphaAll_set_pixel_core (res : FBResource) (x y : ℚ) (r g b : Int)
    (h : alphaAll res) : alphaAll (fb_set_pixel_core res x y r g b) := by
  unfold fb_set_pixel_core
  split
  · exact h
  · exact alphaArr_write3 _ _ _ (by omega) h

theorem fb_defer_write_back (r : FBResource) (now : Nat)
    (h : r.defer = JSVal.num FB_DEFER_WRITE_BACK) :
    fb_defer (some r) now = some r := by
  simp only [fb_defer]
  rw [if_neg]
  rw [h]
  exact (by decide : JSVal.num FB_DEFER_WRITE_BACK ≠ JSVal.num FB_DEFER_WRITE_THROUGH)

theorem fb_defer_write_through (r : FBResource) (now : Nat)
    (h : r.defer = JSVal.num FB_DEFER_WRITE_THROUGH) :
    fb_defer (some r) now = some { r with canvas := r.data, dirty := 0, updated := now } := by
  simp only [fb_defer, fb_sync, fb_update]
  rw [if_pos h]

theorem fb_defer_parts (r : FBResource) (now : Nat) :
    ∃ r2, fb_defer (some r) now = some r2 ∧ r2.data = r.data ∧
      r2.width = r.width ∧ r2.height = r.height ∧ r2.locked = r.locked ∧
      r2.defer = r.defer ∧ r2.error = r.error := by
  by_cases hd : r.defer = JSVal.num FB_DEFER_WRITE_THROUGH
  · rw [fb_defer_write_through r now hd]
    exact ⟨_, rfl, rfl, rfl, rfl, rfl, rfl, rfl⟩
  · simp only [fb_defer]
    rw [if_neg hd]
    exact ⟨_, rfl, rfl, rfl, rfl, rfl, rfl, rfl⟩

theorem fb_create_ok (cfg : ConfigState) (now : Nat) (w h : Int)
    (h1 : 0 < w) (h2 : w ≤ FB_MAX_WIDTH) (h3 : 0 < h) (h4 : h ≤ FB_MAX_HEIGHT) :
    fb_create cfg now w h =
      { width := w, height := h
        data := Array.mkArray (w * h * 4).toNat 255
        canvas := Array.mkArray (w * h * 4).toNat 255
        created := now, updated := 0, loaded := true, locked := false
        dirty := 0, defer := cfg.defer_value, error := none } := by
  unfold fb_create
  unfold FB_MAX_WIDTH FB_MAX_HEIGHT at *
  have hw : toInt32 w = w := toInt32_eq_self w (by omega) (by omega)
  have hh : toInt32 h = h := toInt32_eq_self h (by omega) (by omega)
  rw [hw, hh, if_neg (by omega), if_neg (by omega), if_neg (by omega), if_neg (by omega)]

theorem WF_fb_create (cfg : ConfigState) (now : Nat) (w h : Int)
    (h1 : 0 < w) (h2 : w ≤ FB_MAX_WIDTH) (h3 : 0 < h) (h4 : h ≤ FB_MAX_HEIGHT) :
    WF (fb_create cfg now w h) := by
  rw [fb_create_ok cfg now w h h1 h2 h3 h4]
  refine ⟨h1, h2, h3, h4, ?_⟩
  simp [Array.size_mkArray]

theorem alphaAll_fb_create (cfg : ConfigState) (now : Nat) (w h : Int) :
    alphaAll (fb_create cfg now w h) := by
  unfold alphaAll
  simp only [fb_create]
  split
  · intro i hi _; simp at hi
  · split
    · intro i hi _; simp at hi
    · split
      · intro i hi _; simp at hi
      · split
        · intro i hi _; simp at hi
        · intro i hi _
          simp only [Array.getElem_mkArray]

/-! ## Rectangle fill characterization -/

/-- One step of the `fb_rect` fill loop at pair `(x2, y2)`: the bounds guard
`resource.width > x2 && resource.height > y2` around `fb_set_pixel`. -/
def rectStep (r g b : Int) (cur : FBResource) (p : Int × Int) : FBResource :=
  if cur.width > p.1 ∧ cur.height > p.2 then
    fb_set_pixel_core cur (p.1 : ℚ) (p.2 : ℚ) r g b
  else cur

/-- The pairs `(x2, y2)` the nested fill loops of `fb_rect` visit, in
visiting order (outer `y2`, inner `x2`). -/
def rectPairs (x y w h : Int) : List (Int × Int) :=
  (intRange y (h + y)).flatMap (fun y2 => (intRange x (w + x)).map (fun x2 => (x2, y2)))

theorem fb_rect_fill_eq (res0 : FBResource) (x y w h r g b : Int) (now : Nat) :
    fb_rect (some res0) x y w h r g b true now
      = (true, fb_defer (some ((rectPairs x y w h).foldl (rectStep r g b) res0)) now) := by
  simp only [fb_rect, rectPairs, if_pos]
  have hflat := foldl_nested (rectStep r g b) (fun y2 x2 : Int => (x2, y2))
    (intRange y (h + y)) (intRange x (w + x)) res0
  exact congrArg (fun z => (true, fb_defer (some z) now)) hflat

theorem rectStep_width (r g b : Int) (cur : FBResource) (p : Int × Int) :
    (rectStep r g b cur p).width = cur.width := by
  unfold rectStep
  split
  · exact fb_set_pixel_core_width _ _ _ _ _ _
  · rfl

theorem rectStep_height (r g b : Int) (cur : FBResource) (p : Int × Int) :
    (rectStep r g b cur p).height = cur.height := by
  unfold rectStep
  split
  · exact fb_set_pixel_core_height _ _ _ _ _ _
  · rfl

theorem rectStep_locked (r g b : Int) (cur : FBResource) (p : Int × Int) :
    (rectStep r g b cur p).locked = cur.locked := by
  unfold rectStep
  split
  · exact fb_set_pixel_core_locked_eq _ _ _ _ _ _
  · rfl

theorem rectStep_canvas (r g b : Int) (cur : FBResource) (p : Int × Int) :
    (rectStep r g b cur p).canvas = cur.canvas := by
  unfold rectStep
  split
  · exact fb_set_pixel_core_canvas _ _ _ _ _ _
  · rfl

theorem rectStep_defer (r g b : Int) (cur : FBResource) (p : Int × Int) :
    (rectStep r g b cur p).defer = cur.defer := by
  unfold rectStep
  split
  · exact fb_set_pixel_core_defer _ _ _ _ _ _
  · rfl

theorem rectFold_invariants (r g b : Int) :
    ∀ (L : List (Int × Int)) (cur : FBResource),
      (L.foldl (rectStep r g b) cur).width = cur.width ∧
      (L.foldl (rectStep r g b) cur).height = cur.height ∧
      (L.foldl (rectStep r g b) cur).locked = cur.locked ∧
      (L.foldl (rectStep r g b) cur).canvas = cur.canvas ∧
      (L.foldl (rectStep r g b) cur).defer = cur.defer := by
  intro L
  induction L with
  | nil => intro cur; exact ⟨rfl, rfl, rfl, rfl, rfl⟩
  | cons c rest ih =>
    intro cur
    rw [List.foldl_cons]
    obtain ⟨i1, i2, i3, i4, i5⟩ := ih (rectStep r g b cur c)
    exact ⟨i1.trans (rectStep_width r g b cur c),
      i2.trans (rectStep_height r g b cur c),
      i3.trans (rectStep_locked r g b cur c),
      i4.trans (rectStep_canvas r g b cur c),
      i5.trans (rectStep_defer r g b cur c)⟩

/-- Write position of the guarded `fb_set_pixel(resource, x2, y2, ...)` call
at a pair of integer coordinates. -/
def pixPos (w : Int) (p : Int × Int) : Int :=
  w * toInt32 p.2 * 4 + toInt32 p.1 * 4

theorem rectFold_data (r g b : Int) :
    ∀ (L : List (Int × Int)) (cur : FBResource), cur.locked = false →
      (L.foldl (rectStep r g b) cur).data
        = foldWrite3 (pixPos cur.width) (fun _ => (u8I r, u8I g, u8I b))
            (L.filter (fun p => decide (cur.width > p.1 ∧ cur.height > p.2))) cur.data ∧
      (L.foldl (rectStep r g b) cur).dirty
        = (if L.filter (fun p => decide (cur.width > p.1 ∧ cur.height > p.2)) = []
            then cur.dirty else 1) := by
  intro L
  induction L with
  | nil =>
    intro cur _
    exact ⟨rfl, rfl⟩
  | cons c rest ih =>
    intro cur hlock
    rw [List.foldl_cons, List.filter_cons]
    by_cases hg : cur.width > c.1 ∧ cur.height > c.2
    · rw [if_pos (by simpa using hg)]
      have hstep : rectStep r g b cur c = fb_set_pixel_core cur (c.1 : ℚ) (c.2 : ℚ) r g b := by
        unfold rectStep
        rw [if_pos hg]
      have hsp := fb_set_pixel_core_unlocked cur (c.1 : ℚ) (c.2 : ℚ) r g b hlock
      obtain ⟨ihd, ihdirty⟩ := ih (rectStep r g b cur c)
        (by rw [rectStep_locked]; exact hlock)
      rw [hstep] at ihd ihdirty ⊢
      rw [hsp] at ihd ihdirty ⊢
      constructor
      · rw [ihd]
        rw [foldWrite3_cons]
        have hpos : pixPos cur.width c
            = cur.width * qToInt32 (c.2 : ℚ) * 4 + qToInt32 (c.1 : ℚ) * 4 := by
          unfold pixPos
          rw [qToInt32_intCast, qToInt32_intCast]
        rw [hpos]
      · rw [ihdirty]
        split <;> rfl
    · rw [if_neg (by simpa using hg)]
      have hstep : rectStep r g b cur c = cur := by
        unfold rectStep
        rw [if_neg hg]
      rw [hstep]
      exact ih cur hlock

theorem mem_rectPairs {x y w h : Int} {p : Int × Int} :
    p ∈ rectPairs x y w h ↔ (x ≤ p.1 ∧ p.1 < w + x ∧ y ≤ p.2 ∧ p.2 < h + y) := by
  unfold rectPairs
  rw [List.mem_flatMap]
  constructor
  · rintro ⟨y2, hy2, hp⟩
    rw [List.mem_map] at hp
    obtain ⟨x2, hx2, rfl⟩ := hp
    rw [mem_intRange] at hy2 hx2
    exact ⟨hx2.1, hx2.2, hy2.1, hy2.2⟩
  · rintro ⟨h1, h2, h3, h4⟩
    refine ⟨p.2, mem_intRange.mpr ⟨h3, h4⟩, ?_⟩
    rw [List.mem_map]
    exact ⟨p.1, mem_intRange.mpr ⟨h1, h2⟩, rfl⟩

/-- Two guarded write windows of distinct in-bounds pixels are disjoint, and
no write window ever covers an alpha byte. -/
theorem window_disjoint (w px py bx yb : Int) (hw : 0 < w)
    (hpx : 0 ≤ px) (hpx2 : px < w) (hbx : 0 ≤ bx) (hbx2 : bx < w)
    (hne : ¬(px = bx ∧ py = yb)) (ch k : Int)
    (hch : 0 ≤ ch) (hch4 : ch ≤ 3) (hk : 0 ≤ k) (hk3 : k ≤ 2) :
    w * py * 4 + px * 4 + ch ≠ w * yb * 4 + bx * 4 + k := by
  intro heq
  have hck : ch = k := by omega
  have heq4 : w * py * 4 + px * 4 = w * yb * 4 + bx * 4 := by omega
  have hinj := pixelIndex_inj w px py bx yb hw hpx hpx2 hbx hbx2 heq4
  exact hne ⟨hinj.1, hinj.2⟩

theorem getByte_some_of_lt (d : Array Nat) (j : Int) (h0 : 0 ≤ j)
    (h1 : j.toNat < d.size) : getByte d j = some (d[j.toNat]) := by
  unfold getByte
  rw [if_pos h0]
  exact Array.getElem?_eq_getElem h1

theorem fb_clear_eq (res : FBResource) (r g b : Int) (now : Nat) :
    fb_clear (some res) r g b now
      = (true, fb_defer (some { res with
          data := foldWrite3 (fun i => i) (fun _ => (u8I r, u8I g, u8I b))
            (stride4 res.data.size) res.data }) now) := by
  simp only [fb_clear]
  rfl

/-- C1: for a valid, unlocked resource and in-bounds integer coordinates,
`fb_set_pixel` writes the byte values `r, g, b` at flat indices
`width*y*4 + x*4 + 0/1/2`, leaves the alpha byte at `+3` unchanged, and a
subsequent `fb_get_pixel` returns `[r, g, b]`. -/
theorem c1_set_get_pixel (res : FBResource) (x y r g b : Int)
    (hwf : WF res) (hlock : res.locked = false)
    (hx : 0 ≤ x) (hx2 : x < res.width) (hy : 0 ≤ y) (hy2 : y < res.height)
    (hr0 : 0 ≤ r) (hr1 : r ≤ 255) (hg0 : 0 ≤ g) (hg1 : g ≤ 255)
    (hb0 : 0 ≤ b) (hb1 : b ≤ 255) :
    ∃ out, fb_set_pixel (some res) (x : ℚ) (y : ℚ) r g b = some out ∧
      getByte out.data (res.width * y * 4 + x * 4 + 0) = some r.toNat ∧
      getByte out.data (res.width * y * 4 + x * 4 + 1) = some g.toNat ∧
      getByte out.data (res.width * y * 4 + x * 4 + 2) = some b.toNat ∧
      getByte out.data (res.width * y * 4 + x * 4 + 3)
        = getByte res.data (res.width * y * 4 + x * 4 + 3) ∧
      fb_get_pixel (some out) (x : ℚ) (y : ℚ)
        = some (some r.toNat, some g.toNat, some b.toNat) := by
  obtain ⟨hw0, hwmax, hh0, hhmax, hsize⟩ := hwf
  have hwm : res.width ≤ 32767 := hwmax
  have hhm : res.height ≤ 32767 := hhmax
  have hx32 : qToInt32 ((x : Int) : ℚ) = x := qToInt32_eq_self x (by omega) (by omega)
  have hy32 : qToInt32 ((y : Int) : ℚ) = y := qToInt32_eq_self y (by omega) (by omega)
  have hcore := fb_set_pixel_core_unlocked res (x : ℚ) (y : ℚ) r g b hlock
  rw [hx32, hy32] at hcore
  have hb2 := pixel_window_bound res.width res.height x y 2 hw0 hx hx2 hy hy2
    (by omega) (by omega)
  have hb0' := pixel_window_bound res.width res.height x y 0 hw0 hx hx2 hy hy2
    (by omega) (by omega)
  have hsz : ((res.width * y * 4 + x * 4) + 2).toNat < res.data.size := by omega
  have hpos0 : 0 ≤ res.width * y * 4 + x * 4 := by omega
  refine ⟨fb_set_pixel_core res (x : ℚ) (y : ℚ) r g b, rfl, ?_, ?_, ?_, ?_, ?_⟩
  · rw [hcore]
    have := getByte_write3_hit res.data (res.width * y * 4 + x * 4)
      (u8I r, u8I g, u8I b) 0 (by omega) hpos0 hsz
    simpa [chan, u8I_eq_toNat r hr0 hr1] using this
  · rw [hcore]
    have := getByte_write3_hit res.data (res.width * y * 4 + x * 4)
      (u8I r, u8I g, u8I b) 1 (by omega) hpos0 hsz
    simpa [chan, u8I_eq_toNat g hg0 hg1] using this
  · rw [hcore]
    have := getByte_write3_hit res.data (res.width * y * 4 + x * 4)
      (u8I r, u8I g, u8I b) 2 (by omega) hpos0 hsz
    simpa [chan, u8I_eq_toNat b hb0 hb1] using this
  · rw [hcore]
    exact getByte_write3_ne res.data (res.width * y * 4 + x * 4) _ _
      (by omega) (by omega) (by omega)
  · simp only [fb_get_pixel, fb_get_pixel_core]
    rw [hx32, hy32, fb_set_pixel_core_width]
    unfold FB_CHANNEL_R FB_CHANNEL_G FB_CHANNEL_B
    rw [hcore]
    have h0 := getByte_write3_hit res.data (res.width * y * 4 + x * 4)
      (u8I r, u8I g, u8I b) 0 (by omega) hpos0 hsz
    have h1 := getByte_write3_hit res.data (res.width * y * 4 + x * 4)
      (u8I r, u8I g, u8I b) 1 (by omega) hpos0 hsz
    have h2 := getByte_write3_hit res.data (res.width * y * 4 + x * 4)
      (u8I r, u8I g, u8I b) 2 (by omega) hpos0 hsz
    simp only [Nat.cast_zero, Nat.cast_one, Nat.cast_ofNat, chan] at h0 h1 h2
    rw [h0, h1, h2, u8I_eq_toNat r hr0 hr1, u8I_eq_toNat g hg0 hg1,
      u8I_eq_toNat b hb0 hb1]

theorem c1_set_get_pixel_witness :
    fb_get_pixel (fb_set_pixel (some (fb_create fb_config_initial 0 2 2))
        ((1 : Int) : ℚ) ((1 : Int) : ℚ) 7 8 9) ((1 : Int) : ℚ) ((1 : Int) : ℚ)
      = some (some 7, some 8, some 9) := by
  obtain ⟨out, h1, _, _, _, _, h6⟩ :=
    c1_set_get_pixel (fb_create fb_config_initial 0 2 2) 1 1 7 8 9
      (by decide) (by decide) (by decide) (by decide) (by decide) (by decide)
      (by decide) (by decide) (by decide) (by decide) (by decide) (by decide)
  rw [h1]
  exact h6

/-- C9: a locked resource is immune to `fb_set_pixel` with any arguments
(the whole resource, hence buffer, dirty bit and every other field, is
returned unchanged); `fb_lock` establishes this state and `fb_unlock` clears
it again. -/
theorem c9_locked_noop (res : FBResource) (x y : ℚ) (r g b : Int) :
    (res.locked = true → fb_set_pixel (some res) x y r g b = some res) ∧
    (fb_lock (some res) = (true, some { res with locked := true })) ∧
    (fb_set_pixel (some { res with locked := true }) x y r g b
      = some { res with locked := true }) ∧
    (fb_unlock (some { res with locked := true })
      = (true, some { res with locked := false })) := by
  refine ⟨?_, rfl, ?_, rfl⟩
  · intro h
    simp only [fb_set_pixel]
    rw [fb_set_pixel_core_locked res x y r g b h]
  · simp only [fb_set_pixel]
    rw [fb_set_pixel_core_locked _ x y r g b rfl]

theorem c9_locked_noop_witness :
    fb_set_pixel (some { fb_create fb_config_initial 0 2 2 with locked := true })
        0 0 5 5 5
      = some { fb_create fb_config_initial 0 2 2 with locked := true } :=
  (c9_locked_noop { fb_create fb_config_initial 0 2 2 with locked := true }
    0 0 5 5 5).1 rfl

/-- The `fb_fill` stack loop only ever writes pixels through
`fb_set_pixel_core`: it never clears a dirty bit once set, and it touches
neither the display surface nor the defer policy. -/
theorem fb_fill_loop_invariants :
    ∀ (fuel : Nat) (stack : List (Int × Int)) (res : FBResource)
      (bg : Option Nat × Option Nat × Option Nat) (r g b : Int) (out : FBResource),
      fb_fill_loop res bg r g b stack fuel = some out →
      (res.dirty = 1 → out.dirty = 1) ∧ out.canvas = res.canvas ∧
        out.defer = res.defer := by
  intro fuel
  induction fuel with
  | zero =>
    intro stack res bg r g b out h
    exact absurd h (by simp [fb_fill_loop])
  | succ n ih =>
    intro stack res bg r g b out h
    cases stack with
    | nil =>
      simp only [fb_fill_loop] at h
      cases h
      exact ⟨fun hd => hd, rfl, rfl⟩
    | cons p rest =>
      obtain ⟨px, py⟩ := p
      simp only [fb_fill_loop] at h
      split at h
      · exact ih rest res bg r g b out h
      · split at h
        · exact ih rest res bg r g b out h
        · have hstep := ih _ _ bg r g b out h
          refine ⟨?_, ?_, ?_⟩
          · intro hd
            apply hstep.1
            unfold fb_set_pixel_core
            split
            · exact hd
            · rfl
          · rw [hstep.2.1, fb_set_pixel_core_canvas]
          · rw [hstep.2.2, fb_set_pixel_core_defer]

/-- C2 counterexample: on a freshly created write-back resource (dirty bit
0), `fb_clear` changes the pixel buffer — a mutation — yet leaves the dirty
bit at 0, because `fb_clear` writes the buffer directly and never sets
`resource.dirty`.  The claim says any such mutation leaves the dirty flag
set to 1. -/
theorem c2_clear_keeps_dirty_zero :
    ((fb_clear (some (fb_create fb_config_initial 0 2 2)) 0 0 0 0).2.map FBResource.dirty
      = some 0) ∧
    ((fb_clear (some (fb_create fb_config_initial 0 2 2)) 0 0 0 0).2.map FBResource.data
      ≠ some (fb_create fb_config_initial 0 2 2).data) := by
  constructor
  · decide
  · decide

/-- C2 (amended): for a valid unlocked write-back resource, mutations that
go through `fb_set_pixel` set the dirty bit to 1 and never touch the
display surface — `fb_set_pixel` itself, a non-degenerate `fb_rect` fill,
and an `fb_fill` that runs its stack loop (in-bounds seed, returning true);
`fb_clear` writes the buffer directly and leaves the dirty bit unchanged;
nothing is flushed before an explicit `fb_sync`, which copies the buffer to
the surface and resets the dirty bit to 0.  For a write-through resource,
`fb_rect` and `fb_clear` always, and `fb_fill` whenever it runs its stack
loop (returns true), flush immediately through `fb_defer`/`fb_sync` and
return with the dirty bit 0 and the surface equal to the buffer.  Under
either policy `fb_fill` has one exception: when the seed pixel already has
the fill color it returns false before reaching `fb_defer`, leaving the
buffer, the surface and the dirty bit untouched. -/
theorem c2_defer_policy (res : FBResource) (now : Nat) (x y : ℚ)
    (xr yr w h r g b : Int)
    (hlock : res.locked = false)
    (hxr : xr < res.width) (hyr : yr < res.height) (hw : 0 < w) (hh : 0 < h) :
    (res.defer = JSVal.num FB_DEFER_WRITE_BACK →
      ((fb_set_pixel_core res x y r g b).dirty = 1 ∧
       (fb_set_pixel_core res x y r g b).canvas = res.canvas) ∧
      (∃ out, (fb_rect (some res) xr yr w h r g b true now).2 = some out ∧
        out.canvas = res.canvas ∧ out.dirty = 1) ∧
      (∃ out, (fb_clear (some res) r g b now).2 = some out ∧
        out.dirty = res.dirty ∧ out.canvas = res.canvas) ∧
      (∀ (xs ys : Int) (fuel : Nat) (out : FBResource),
        0 ≤ xs → xs < res.width → 0 ≤ ys → ys < res.height →
        fb_fill (some res) xs ys r g b now fuel = some (true, some out) →
        out.dirty = 1 ∧ out.canvas = res.canvas) ∧
      fb_sync (some res) now
        = (1, some { res with canvas := res.data, dirty := 0, updated := now })) ∧
    (res.defer = JSVal.num FB_DEFER_WRITE_THROUGH →
      (∃ out, (fb_rect (some res) xr yr w h r g b true now).2 = some out ∧
        out.dirty = 0 ∧ out.canvas = out.data) ∧
      (∃ out, (fb_clear (some res) r g b now).2 = some out ∧
        out.dirty = 0 ∧ out.canvas = out.data) ∧
      (∀ (xs ys : Int) (fuel : Nat) (out : FBResource),
        fb_fill (some res) xs ys r g b now fuel = some (true, some out) →
        out.dirty = 0 ∧ out.canvas = out.data)) ∧
    (∀ (xs ys r2 g2 b2 : Int) (fuel : Nat),
      jsEqNum (fb_get_pixel_core res (xs : ℚ) (ys : ℚ)).1 r2 ∧
      jsEqNum (fb_get_pixel_core res (xs : ℚ) (ys : ℚ)).2.1 g2 ∧
      jsEqNum (fb_get_pixel_core res (xs : ℚ) (ys : ℚ)).2.2 b2 →
      fb_fill (some res) xs ys r2 g2 b2 now fuel = some (false, some res)) := by
  have hfoldinv := rectFold_invariants r g b (rectPairs xr yr w h) res
  have hfolddata := rectFold_data r g b (rectPairs xr yr w h) res hlock
  have hmem : (xr, yr) ∈ (rectPairs xr yr w h).filter
      (fun p => decide (res.width > p.1 ∧ res.height > p.2)) := by
    rw [List.mem_filter]
    constructor
    · rw [mem_rectPairs]
      exact ⟨le_refl xr, by omega, le_refl yr, by omega⟩
    · simp only [decide_eq_true_eq]
      exact ⟨hxr, hyr⟩
  have hfilter_ne : (rectPairs xr yr w h).filter
      (fun p => decide (res.width > p.1 ∧ res.height > p.2)) ≠ [] :=
    List.ne_nil_of_mem hmem
  refine ⟨?_, ?_, ?_⟩
  · intro hdef
    refine ⟨⟨?_, ?_⟩, ?_, ?_, ?_, ?_⟩
    · rw [fb_set_pixel_core_unlocked res x y r g b hlock]
    · exact fb_set_pixel_core_canvas res x y r g b
    · -- fb_rect, write-back
      rw [fb_rect_fill_eq]
      have hdf : ((rectPairs xr yr w h).foldl (rectStep r g b) res).defer
          = JSVal.num FB_DEFER_WRITE_BACK := by
        rw [hfoldinv.2.2.2.2, hdef]
      rw [fb_defer_write_back _ now hdf]
      refine ⟨_, rfl, hfoldinv.2.2.2.1, ?_⟩
      rw [hfolddata.2, if_neg hfilter_ne]
    · -- fb_clear, write-back
      rw [fb_clear_eq]
      rw [fb_defer_write_back { res with
        data := foldWrite3 (fun i => i) (fun _ => (u8I r, u8I g, u8I b))
          (stride4 res.data.size) res.data } now hdef]
      exact ⟨_, rfl, rfl, rfl⟩
    · -- fb_fill, write-back: a completed fill went through fb_set_pixel_core
      intro xs ys fuel out hx0 hx1 hy0 hy1 hfill
      simp only [fb_fill] at hfill
      split at hfill
      · simp at hfill
      · split at hfill
        · simp at hfill
        · rename_i res2 hloop
          cases fuel with
          | zero => simp [fb_fill_loop] at hloop
          | succ n =>
            simp only [fb_fill_loop] at hloop
            rw [if_neg (by omega), if_neg (by simp)] at hloop
            have hinv := fb_fill_loop_invariants n _ _ _ r g b res2 hloop
            have hd1 : (fb_set_pixel_core res (xs : ℚ) (ys : ℚ) r g b).dirty
                = 1 := by
              rw [fb_set_pixel_core_unlocked res (xs : ℚ) (ys : ℚ) r g b hlock]
            have hdefer2 : res2.defer = JSVal.num FB_DEFER_WRITE_BACK :=
              (hinv.2.2.trans
                (fb_set_pixel_core_defer res (xs : ℚ) (ys : ℚ) r g b)).trans hdef
            rw [fb_defer_write_back res2 now hdefer2] at hfill
            have hout2 : res2 = out := by simpa using hfill
            subst hout2
            exact ⟨hinv.1 hd1, (hinv.2.1).trans
              (fb_set_pixel_core_canvas res (xs : ℚ) (ys : ℚ) r g b)⟩
    · simp only [fb_sync, fb_update]
  · intro hdef
    refine ⟨?_, ?_, ?_⟩
    · -- fb_rect, write-through
      rw [fb_rect_fill_eq]
      have hdf : ((rectPairs xr yr w h).foldl (rectStep r g b) res).defer
          = JSVal.num FB_DEFER_WRITE_THROUGH := by
        rw [hfoldinv.2.2.2.2, hdef]
      rw [fb_defer_write_through _ now hdf]
      exact ⟨_, rfl, rfl, rfl⟩
    · -- fb_clear, write-through
      rw [fb_clear_eq]
      rw [fb_defer_write_through { res with
        data := foldWrite3 (fun i => i) (fun _ => (u8I r, u8I g, u8I b))
          (stride4 res.data.size) res.data } now hdef]
      exact ⟨_, rfl, rfl, rfl⟩
    · -- fb_fill, write-through: a completed fill flushes on its way out
      intro xs ys fuel out hfill
      simp only [fb_fill] at hfill
      split at hfill
      · simp at hfill
      · split at hfill
        · simp at hfill
        · rename_i res2 hloop
          have hinv := fb_fill_loop_invariants fuel [(xs, ys)] res _ r g b
            res2 hloop
          rw [fb_defer_write_through res2 now (hinv.2.2.trans hdef)] at hfill
          have hout2 :
              ({ res2 with canvas := res2.data, dirty := 0, updated := now } : FBResource)
                = out := by
            simpa using hfill
          subst hout2
          exact ⟨rfl, rfl⟩
  · -- fb_fill early return: seed already has the fill color, no fb_defer
    intro xs ys r2 g2 b2 fuel hcond
    simp only [fb_fill]
    rw [if_pos hcond]

theorem c2_defer_policy_witness :
    fb_sync (some (fb_create fb_config_initial 5 2 2)) 9
      = (1, some { fb_create fb_config_initial 5 2 2 with
          canvas := (fb_create fb_config_initial 5 2 2).data
          dirty := 0, updated := 9 }) :=
  (((c2_defer_policy (fb_create fb_config_initial 5 2 2) 9 0 0 1 1 1 1 7 7 7
    (by decide) (by decide) (by decide) (by decide) (by decide)).1)
    (by decide)).2.2.2.2

/-- The write window of one guarded pixel write never collides with a byte
of a different in-bounds pixel, nor with any alpha byte. -/
theorem window_ne_of (w px py bx yb ch k : Int) (hw : 0 < w)
    (hpx : 0 ≤ px) (hpx2 : px < w) (hbx : 0 ≤ bx) (hbx2 : bx < w)
    (hch : 0 ≤ ch) (hch4 : ch ≤ 3) (hk : 0 ≤ k) (hk3 : k ≤ 2)
    (hsafe : ch = 3 ∨ ¬(px = bx ∧ py = yb)) :
    w * py * 4 + px * 4 + ch ≠ w * yb * 4 + bx * 4 + k := by
  intro heq
  have hck : ch = k := by omega
  rcases hsafe with h3 | hne
  · omega
  · have heq4 : w * py * 4 + px * 4 = w * yb * 4 + bx * 4 := by omega
    have hinj := pixelIndex_inj w px py bx yb hw hpx hpx2 hbx hbx2 heq4
    exact hne ⟨hinj.1, hinj.2⟩

/-- C7 counterexample: on a 2x2 resource, `fb_rect(resource, -1, 1, 1, 1,
50, 60, 70, true)` covers no pixel inside the image bounds (its only cell is
`x2 = -1`), so by the claim the buffer must be left entirely unchanged; but
the missing lower bound check makes the write at `(-1, 1)` land on flat
index `2*1*4 + (-1)*4 = 4`, i.e. pixel `(1, 0)`, which changes from 255 to
50. -/
theorem c7_negative_x_wraps :
    ((fb_rect (some (fb_create fb_config_initial 0 2 2)) (-1) 1 1 1 50 60 70 true 0).2.map
        (fun out => getByte out.data 4) = some (some 50)) ∧
    getByte (fb_create fb_config_initial 0 2 2).data 4 = some 255 := by
  constructor
  · decide
  · decide

/-- C7 (amended): additionally requires `0 ≤ x` and `0 ≤ y` (for negative
corner coordinates the unchecked lower bound wraps writes onto other
pixels).  Then the fill variant of `fb_rect` sets exactly the rectangle
pixels that lie inside the image bounds to `(r, g, b)`, leaves every other
byte of the buffer (including all alpha bytes) unchanged, and returns
true. -/
theorem c7_rect_fill (res : FBResource) (x y w h r g b : Int) (now : Nat)
    (hwf : WF res) (hlock : res.locked = false) (hx : 0 ≤ x) (hy : 0 ≤ y)
    (hr0 : 0 ≤ r) (hr1 : r ≤ 255) (hg0 : 0 ≤ g) (hg1 : g ≤ 255)
    (hb0 : 0 ≤ b) (hb1 : b ≤ 255) :
    (fb_rect (some res) x y w h r g b true now).1 = true ∧
    ∃ out, (fb_rect (some res) x y w h r g b true now).2 = some out ∧
      (∀ px py : Int, x ≤ px → px < x + w → y ≤ py → py < y + h →
        px < res.width → py < res.height →
        getByte out.data (res.width * py * 4 + px * 4 + 0) = some r.toNat ∧
        getByte out.data (res.width * py * 4 + px * 4 + 1) = some g.toNat ∧
        getByte out.data (res.width * py * 4 + px * 4 + 2) = some b.toNat ∧
        getByte out.data (res.width * py * 4 + px * 4 + 3)
          = getByte res.data (res.width * py * 4 + px * 4 + 3)) ∧
      (∀ px py : Int, 0 ≤ px → px < res.width → 0 ≤ py → py < res.height →
        ¬(x ≤ px ∧ px < x + w ∧ y ≤ py ∧ py < y + h) →
        ∀ ch : Int, 0 ≤ ch → ch ≤ 3 →
        getByte out.data (res.width * py * 4 + px * 4 + ch)
          = getByte res.data (res.width * py * 4 + px * 4 + ch)) := by
  obtain ⟨hw0, hwmax, hh0, hhmax, hsize⟩ := hwf
  have hwm : res.width ≤ 32767 := hwmax
  have hhm : res.height ≤ 32767 := hhmax
  rw [fb_rect_fill_eq]
  refine ⟨rfl, ?_⟩
  set F := (rectPairs x y w h).foldl (rectStep r g b) res with hF
  obtain ⟨out, hdef, hdata, _, _, _, _, _⟩ := fb_defer_parts F now
  have hfdata := (rectFold_data r g b (rectPairs x y w h) res hlock).1
  set filt := (rectPairs x y w h).filter
    (fun p => decide (res.width > p.1 ∧ res.height > p.2)) with hfilt
  -- membership facts about the filtered pair list
  have hmemf : ∀ p : Int × Int, p ∈ filt ↔
      (x ≤ p.1 ∧ p.1 < w + x ∧ y ≤ p.2 ∧ p.2 < h + y ∧
        p.1 < res.width ∧ p.2 < res.height) := by
    intro p
    rw [hfilt, List.mem_filter, mem_rectPairs]
    simp only [decide_eq_true_eq]
    constructor
    · rintro ⟨⟨m1, m2, m3, m4⟩, m5, m6⟩
      exact ⟨m1, m2, m3, m4, m5, m6⟩
    · rintro ⟨m1, m2, m3, m4, m5, m6⟩
      exact ⟨⟨m1, m2, m3, m4⟩, m5, m6⟩
  have hposmem : ∀ p : Int × Int, p ∈ filt →
      pixPos res.width p = res.width * p.2 * 4 + p.1 * 4 ∧
      0 ≤ p.1 ∧ p.1 < res.width ∧ 0 ≤ p.2 ∧ p.2 < res.height := by
    intro p hp
    obtain ⟨m1, m2, m3, m4, m5, m6⟩ := (hmemf p).mp hp
    have hp1 : 0 ≤ p.1 := le_trans hx m1
    have hp2 : 0 ≤ p.2 := le_trans hy m3
    have t1 : toInt32 p.1 = p.1 := toInt32_eq_self p.1 (by omega) (by omega)
    have t2 : toInt32 p.2 = p.2 := toInt32_eq_self p.2 (by omega) (by omega)
    refine ⟨?_, hp1, m5, hp2, m6⟩
    unfold pixPos
    rw [t1, t2]
  refine ⟨out, hdef, ?_, ?_⟩
  · -- pixels inside the rectangle and inside the bounds
    intro px py hpx1 hpx2 hpy1 hpy2 hpxw hpyh
    have hpx0 : 0 ≤ px := le_trans hx hpx1
    have hpy0 : 0 ≤ py := le_trans hy hpy1
    have hbound := pixel_window_bound res.width res.height px py 2 hw0 hpx0 hpxw
      hpy0 hpyh (by omega) (by omega)
    have hP0 : 0 ≤ res.width * py * 4 + px * 4 := by omega
    have hPsz : ((res.width * py * 4 + px * 4) + 2).toNat < res.data.size := by omega
    have hmem : (px, py) ∈ filt :=
      (hmemf (px, py)).mpr ⟨hpx1, by omega, hpy1, by omega, hpxw, hpyh⟩
    have hhit := getByte_foldWrite3_hit (pixPos res.width)
      (fun _ => (u8I r, u8I g, u8I b)) filt res.data
      (res.width * py * 4 + px * 4) (u8I r, u8I g, u8I b)
      (fun a _ => by unfold pixPos; omega)
      (fun a _ _ => rfl)
      ⟨(px, py), hmem, (hposmem (px, py) hmem).1⟩
      hP0 hPsz
    rw [hdata, hfdata]
    refine ⟨?_, ?_, ?_, ?_⟩
    · have := hhit 0 (by omega)
      simpa [chan, u8I_eq_toNat r hr0 hr1] using this
    · have := hhit 1 (by omega)
      simpa [chan, u8I_eq_toNat g hg0 hg1] using this
    · have := hhit 2 (by omega)
      simpa [chan, u8I_eq_toNat b hb0 hb1] using this
    · apply getByte_foldWrite3_ne
      intro a ha
      obtain ⟨hpa, ha1, ha2, ha3, ha4⟩ := hposmem a ha
      rw [hpa]
      refine ⟨?_, ?_, ?_⟩
      · exact window_ne_of res.width px py a.1 a.2 3 0 hw0 hpx0 hpxw ha1 ha2
          (by omega) (by omega) (by omega) (by omega) (Or.inl rfl)
      · exact window_ne_of res.width px py a.1 a.2 3 1 hw0 hpx0 hpxw ha1 ha2
          (by omega) (by omega) (by omega) (by omega) (Or.inl rfl)
      · exact window_ne_of res.width px py a.1 a.2 3 2 hw0 hpx0 hpxw ha1 ha2
          (by omega) (by omega) (by omega) (by omega) (Or.inl rfl)
  · -- pixels outside the rectangle are untouched
    intro px py hpx0 hpxw hpy0 hpyh hnotin ch hch0 hch3
    rw [hdata, hfdata]
    apply getByte_foldWrite3_ne
    intro a ha
    obtain ⟨hpa, ha1, ha2, ha3, ha4⟩ := hposmem a ha
    obtain ⟨m1, m2, m3, m4, _, _⟩ := (hmemf a).mp ha
    have hne : ¬(px = a.1 ∧ py = a.2) := by
      rintro ⟨rfl, rfl⟩
      exact hnotin ⟨m1, by omega, m3, by omega⟩
    rw [hpa]
    refine ⟨?_, ?_, ?_⟩
    · exact window_ne_of res.width px py a.1 a.2 ch 0 hw0 hpx0 hpxw ha1 ha2
        hch0 hch3 (by omega) (by omega) (Or.inr hne)
    · exact window_ne_of res.width px py a.1 a.2 ch 1 hw0 hpx0 hpxw ha1 ha2
        hch0 hch3 (by omega) (by omega) (Or.inr hne)
    · exact window_ne_of res.width px py a.1 a.2 ch 2 hw0 hpx0 hpxw ha1 ha2
        hch0 hch3 (by omega) (by omega) (Or.inr hne)

theorem c7_rect_fill_witness :
    (fb_rect (some (fb_create fb_config_initial 0 3 3)) 1 1 2 2 9 8 7 true 0).1
      = true := by
  have := c7_rect_fill (fb_create fb_config_initial 0 3 3) 1 1 2 2 9 8 7 0
    (by decide) (by decide) (by decide) (by decide) (by decide) (by decide)
    (by decide) (by decide) (by decide) (by decide)
  exact this.1

/-- Membership-aware fold preservation. -/
theorem foldl_preserve_mem {β α : Type} (P : β → Prop) (f : β → α → β) :
    ∀ (L : List α), (∀ b a, a ∈ L → P b → P (f b a)) →
      ∀ b, P b → P (L.foldl f b) := by
  intro L
  induction L with
  | nil => intro _ b hb; exact hb
  | cons c rest ih =>
    intro hstep b hb
    rw [List.foldl_cons]
    exact ih (fun b a ha hb => hstep b a (by simp [ha]) hb) _
      (hstep b c (by simp) hb)

theorem alphaAll_of_data_eq {r2 r : FBResource} (hdata : r2.data = r.data)
    (h : alphaAll r) : alphaAll r2 := by
  unfold alphaAll
  rw [hdata]
  exact h

/-- The buffer built by the `fb_copy` loop. -/
def fb_copy_data (cfg : ConfigState) (now : Nat) (res : FBResource)
    (cri cgi cbi : Int) : Array Nat :=
  (stride4 res.data.size).foldl
    (fun d i =>
      write3 d i
        (u8Read (getByte res.data (i + cri)),
         u8Read (getByte res.data (i + cgi)),
         u8Read (getByte res.data (i + cbi))))
    (fb_create cfg now res.width res.height).data

theorem fb_copy_eq (cfg : ConfigState) (now : Nat) (res : FBResource)
    (cri cgi cbi : Int) :
    fb_copy cfg now (some res) cri cgi cbi
      = fb_defer (some { fb_create cfg now res.width res.height with
          data := fb_copy_data cfg now res cri cgi cbi
          canvas := fb_copy_data cfg now res cri cgi cbi }) now := rfl

theorem alphaAll_fill_loop :
    ∀ (fuel : Nat) (stack : List (Int × Int)) (res : FBResource)
      (bg : Option Nat × Option Nat × Option Nat) (r g b : Int) (out : FBResource),
      alphaAll res → fb_fill_loop res bg r g b stack fuel = some out →
      alphaAll out := by
  intro fuel
  induction fuel with
  | zero =>
    intro stack res bg r g b out _ h
    exact absurd h (by simp [fb_fill_loop])
  | succ n ih =>
    intro stack res bg r g b out hres h
    cases stack with
    | nil =>
      simp only [fb_fill_loop] at h
      cases h
      exact hres
    | cons p rest =>
      obtain ⟨px, py⟩ := p
      simp only [fb_fill_loop] at h
      split at h
      · exact ih rest res bg r g b out hres h
      · split at h
        · exact ih rest res bg r g b out hres h
        · exact ih _ _ bg r g b out
            (alphaAll_set_pixel_core res (px : ℚ) (py : ℚ) r g b hres) h

/-- C10: every resource `fb_create` builds has all alpha bytes 255 (a byte
at index congruent to 3 mod 4), and the invariant is preserved by every
pixel-mutating operation of the library: `fb_set_pixel` (at arbitrary
coordinates, which also covers the writes `fb_line`, `fb_circle` and the
outline branch of `fb_rect` perform through it), `fb_clear`, `fb_rect`,
`fb_fill`, and `fb_copy` write only R, G and B bytes (offsets 0..2 from a
write position that is a multiple of 4) and never an alpha byte. -/
theorem c10_alpha_invariant :
    (∀ (cfg : ConfigState) (now : Nat) (w h : Int), alphaAll (fb_create cfg now w h)) ∧
    (∀ (res : FBResource) (x y : ℚ) (r g b : Int),
      alphaAll res → alphaAll (fb_set_pixel_core res x y r g b)) ∧
    (∀ (res : FBResource) (r g b : Int) (now : Nat) (out : FBResource),
      alphaAll res → (fb_clear (some res) r g b now).2 = some out → alphaAll out) ∧
    (∀ (res : FBResource) (x y w h r g b : Int) (fill : Bool) (now : Nat)
      (out : FBResource),
      alphaAll res → (fb_rect (some res) x y w h r g b fill now).2 = some out →
      alphaAll out) ∧
    (∀ (res : FBResource) (x y r g b : Int) (now fuel : Nat) (ret : Bool)
      (out : FBResource),
      alphaAll res → fb_fill (some res) x y r g b now fuel = some (ret, some out) →
      alphaAll out) ∧
    (∀ (cfg : ConfigState) (now : Nat) (res : FBResource) (cri cgi cbi : Int)
      (out : FBResource),
      fb_copy cfg now (some res) cri cgi cbi = some out → alphaAll out) := by
  refine ⟨alphaAll_fb_create, alphaAll_set_pixel_core, ?_, ?_, ?_, ?_⟩
  · -- fb_clear
    intro res r g b now out hres hout
    rw [fb_clear_eq] at hout
    simp only at hout
    obtain ⟨r2, hd, hdata, _⟩ := fb_defer_parts { res with
      data := foldWrite3 (fun i => i) (fun _ => (u8I r, u8I g, u8I b))
        (stride4 res.data.size) res.data } now
    rw [hd] at hout
    cases hout
    apply alphaAll_of_data_eq hdata
    unfold alphaAll foldWrite3
    apply foldl_preserve_mem alphaArr _ (stride4 res.data.size)
    · intro d i hi hd2
      exact alphaArr_write3 d i _ (by have := mem_stride4.mp hi; omega) hd2
    · exact hres
  · -- fb_rect
    intro res x y w h r g b fill now out hres hout
    cases fill with
    | true =>
      rw [fb_rect_fill_eq] at hout
      simp only at hout
      obtain ⟨r2, hd, hdata, _⟩ :=
        fb_defer_parts ((rectPairs x y w h).foldl (rectStep r g b) res) now
      rw [hd] at hout
      cases hout
      apply alphaAll_of_data_eq hdata
      refine foldl_preserve alphaAll (rectStep r g b) ?_ (rectPairs x y w h) res hres
      intro cur p hcur
      unfold rectStep
      split
      · exact alphaAll_set_pixel_core cur _ _ r g b hcur
      · exact hcur
    | false =>
      simp only [fb_rect] at hout
      obtain ⟨r2, hd, hdata, _⟩ := fb_defer_parts res now
      rw [hd] at hout
      cases hout
      exact alphaAll_of_data_eq hdata hres
  · -- fb_fill
    intro res x y r g b now fuel ret out hres hout
    simp only [fb_fill] at hout
    split at hout
    · cases hout
      exact hres
    · split at hout
      · exact absurd hout (by simp)
      · rename_i res2 hloop
        obtain ⟨r2, hd, hdata, _⟩ := fb_defer_parts res2 now
        rw [hd] at hout
        cases hout
        exact alphaAll_of_data_eq hdata
          (alphaAll_fill_loop fuel [(x, y)] res _ r g b res2 hres hloop)
  · -- fb_copy
    intro cfg now res cri cgi cbi out hout
    rw [fb_copy_eq] at hout
    obtain ⟨r2, hd, hdata, _⟩ := fb_defer_parts { fb_create cfg now res.width res.height with
      data := fb_copy_data cfg now res cri cgi cbi
      canvas := fb_copy_data cfg now res cri cgi cbi } now
    rw [hd] at hout
    cases hout
    apply alphaAll_of_data_eq hdata
    show alphaArr (fb_copy_data cfg now res cri cgi cbi)
    unfold fb_copy_data
    apply foldl_preserve_mem alphaArr _ (stride4 res.data.size)
    · intro d i hi hd2
      exact alphaArr_write3 d i _ (by have := mem_stride4.mp hi; omega) hd2
    · exact alphaAll_fb_create cfg now res.width res.height

theorem c10_alpha_invariant_witness :
    alphaAll (fb_set_pixel_core (fb_create fb_config_initial 0 2 2) 0 0 13 14 15) :=
  c10_alpha_invariant.2.1 (fb_create fb_config_initial 0 2 2) 0 0 13 14 15
    (c10_alpha_invariant.1 fb_config_initial 0 2 2)

/-- The tail of `fb_convolution_matrix`: deferring a resource always yields
a resource result. -/
theorem match_defer_res (Z : FBResource) (now : Nat) :
    ∃ out, (match fb_defer (some Z) now with
      | none => FBResult.nullv
      | some r2 => FBResult.res r2) = FBResult.res out := by
  obtain ⟨r2, hr2, _⟩ := fb_defer_parts Z now
  rw [hr2]
  exact ⟨r2, rfl⟩

/-- C4: for a valid resource, `fb_convolution_matrix` returns an error
tagged `FB_ERR_CONVOLUTION_MATRIX_SIZE` exactly when the matrix length is
neither 9 nor 25 (before any copy is made, so no new resource exists and the
input buffer is untouched), and for a matrix of length 9 or 25 it returns a
new resource. -/
theorem c4_convolution_matrix_size (cfg : ConfigState) (now : Nat)
    (res : FBResource) (matrix : List Int) (divisor offset : Int) :
    ((∃ e, fb_convolution_matrix cfg now (some res) matrix divisor offset
        = FBResult.err e ∧ e.id = some FBErrorId.FB_ERR_CONVOLUTION_MATRIX_SIZE)
      ↔ (matrix.length ≠ 9 ∧ matrix.length ≠ 25)) ∧
    (matrix.length = 9 ∨ matrix.length = 25 →
      ∃ out, fb_convolution_matrix cfg now (some res) matrix divisor offset
        = FBResult.res out) := by
  by_cases hlen : matrix.length ≠ 9 ∧ matrix.length ≠ 25
  · constructor
    · constructor
      · intro _; exact hlen
      · intro _
        refine ⟨fb_error .FB_ERR_CONVOLUTION_MATRIX_SIZE FB_ORIGIN_SYSTEM, ?_, rfl⟩
        simp only [fb_convolution_matrix]
        rw [if_pos hlen]
    · intro h
      rcases h with h9 | h25
      · exact absurd h9 hlen.1
      · exact absurd h25 hlen.2
  · have hris : ∃ out, fb_convolution_matrix cfg now (some res) matrix divisor offset
        = FBResult.res out := by
      simp only [fb_convolution_matrix]
      rw [if_neg hlen, fb_copy_eq]
      obtain ⟨c, hc, _⟩ := fb_defer_parts { fb_create cfg now res.width res.height with
        data := fb_copy_data cfg now res 0 1 2
        canvas := fb_copy_data cfg now res 0 1 2 } now
      rw [hc]
      exact match_defer_res _ now
    obtain ⟨out, hout⟩ := hris
    constructor
    · constructor
      · rintro ⟨e, he, _⟩
        rw [hout] at he
        exact absurd he (by simp)
      · intro h
        exact absurd h hlen
    · intro _
      exact ⟨out, hout⟩

theorem c4_convolution_matrix_size_witness :
    (∃ e, fb_convolution_matrix fb_config_initial 0
        (some (fb_create fb_config_initial 0 1 1)) [1, 2, 3] 1 0
      = FBResult.err e ∧ e.id = some FBErrorId.FB_ERR_CONVOLUTION_MATRIX_SIZE) ∧
    (∃ out, fb_convolution_matrix fb_config_initial 0
        (some (fb_create fb_config_initial 0 1 1)) [0, 0, 0, 0, 0, 0, 0, 0, 0] 1 0
      = FBResult.res out) :=
  ⟨(c4_convolution_matrix_size fb_config_initial 0 (fb_create fb_config_initial 0 1 1)
      [1, 2, 3] 1 0).1.mpr (by decide),
   (c4_convolution_matrix_size fb_config_initial 0 (fb_create fb_config_initial 0 1 1)
      [0, 0, 0, 0, 0, 0, 0, 0, 0] 1 0).2 (Or.inl rfl)⟩

/-! ## Convolution correctness (C5) -/

/-- A source channel byte as an integer (0 for an out-of-range read), the
value entering the convolution sums. -/
def pixByte (res : FBResource) (x y ch : Int) : Int :=
  ((getByte res.data (res.width * y * 4 + x * 4 + ch)).getD 0 : Int)

/-- The sum the claim describes for the 3x3 kernel: over the neighborhood of
`(x, y)`, source channel value times the corresponding kernel weight, in the
kernel order of the source (`a0 .. c2`). -/
def convSum3 (res : FBResource) (cm : List Int) (x y ch : Int) : Int :=
  pixByte res (x - 1) (y - 1) ch * cm.getD 0 0 +
  pixByte res x (y - 1) ch * cm.getD 1 0 +
  pixByte res (x + 1) (y - 1) ch * cm.getD 2 0 +
  pixByte res (x - 1) y ch * cm.getD 3 0 +
  pixByte res x y ch * cm.getD 4 0 +
  pixByte res (x + 1) y ch * cm.getD 5 0 +
  pixByte res (x - 1) (y + 1) ch * cm.getD 6 0 +
  pixByte res x (y + 1) ch * cm.getD 7 0 +
  pixByte res (x + 1) (y + 1) ch * cm.getD 8 0

/-- Like `match_defer_res`, also exposing that deferring does not change the
pixel buffer. -/
theorem match_defer_res_data (Z : FBResource) (now : Nat) :
    ∃ out, (match fb_defer (some Z) now with
      | none => FBResult.nullv
      | some r2 => FBResult.res r2) = FBResult.res out ∧ out.data = Z.data := by
  obtain ⟨r2, hr2, hd, _⟩ := fb_defer_parts Z now
  rw [hr2]
  exact ⟨r2, rfl, hd⟩

/-- The pairs `(x, y)` the convolution loops visit (outer `x`, inner `y`). -/
def gridPairs (w h : Int) : List (Int × Int) :=
  (intRange 0 w).flatMap (fun x => (intRange 0 h).map (fun y => (x, y)))

theorem mem_gridPairs {w h : Int} {p : Int × Int} :
    p ∈ gridPairs w h ↔ (0 ≤ p.1 ∧ p.1 < w ∧ 0 ≤ p.2 ∧ p.2 < h) := by
  unfold gridPairs
  rw [List.mem_flatMap]
  constructor
  · rintro ⟨x, hx, hp⟩
    rw [List.mem_map] at hp
    obtain ⟨y, hy, rfl⟩ := hp
    rw [mem_intRange] at hx hy
    exact ⟨hx.1, hx.2, hy.1, hy.2⟩
  · rintro ⟨h1, h2, h3, h4⟩
    refine ⟨p.1, mem_intRange.mpr ⟨h1, h2⟩, ?_⟩
    rw [List.mem_map]
    exact ⟨p.2, mem_intRange.mpr ⟨h3, h4⟩, rfl⟩

theorem conv_fold3_eq (res : FBResource) (matrix : List Int) (divisor offset : Int)
    (d : Array Nat) :
    conv_fold3 res matrix divisor offset d
      = foldWrite3 (fun p => res.width * p.2 * 4 + p.1 * 4)
          (fun p => conv3_write res matrix divisor offset p.1 p.2)
          (gridPairs res.width res.height) d := by
  unfold conv_fold3 gridPairs foldWrite3
  exact foldl_nested
    (fun d p => write3 d (res.width * p.2 * 4 + p.1 * 4)
      (conv3_write res matrix divisor offset p.1 p.2))
    (fun x y : Int => (x, y)) (intRange 0 res.width) (intRange 0 res.height) d

theorem size_fb_copy_data (cfg : ConfigState) (now : Nat) (res : FBResource)
    (cri cgi cbi : Int) :
    (fb_copy_data cfg now res cri cgi cbi).size
      = (fb_create cfg now res.width res.height).data.size := by
  unfold fb_copy_data
  apply foldl_preserve
    (fun d : Array Nat => d.size = (fb_create cfg now res.width res.height).data.size)
  · intro d i hd
    rw [size_write3]
    exact hd
  · rfl

theorem fb_get_pixel_core_int_some (res : FBResource) (x y : Int) (hwf : WF res)
    (hx : 0 ≤ x) (hx2 : x < res.width) (hy : 0 ≤ y) (hy2 : y < res.height) :
    ∃ v0 v1 v2 : Nat,
      fb_get_pixel_core res (x : ℚ) (y : ℚ) = (some v0, some v1, some v2) ∧
      (v0 : Int) = pixByte res x y 0 ∧ (v1 : Int) = pixByte res x y 1 ∧
      (v2 : Int) = pixByte res x y 2 := by
  obtain ⟨hw0, hwmax, hh0, hhmax, hsize⟩ := hwf
  have hwm : res.width ≤ 32767 := hwmax
  have hhm : res.height ≤ 32767 := hhmax
  have hx32 : qToInt32 ((x : Int) : ℚ) = x := qToInt32_eq_self x (by omega) (by omega)
  have hy32 : qToInt32 ((y : Int) : ℚ) = y := qToInt32_eq_self y (by omega) (by omega)
  have hb : ∀ ch : Int, 0 ≤ ch → ch ≤ 3 →
      0 ≤ res.width * y * 4 + x * 4 + ch ∧
      (res.width * y * 4 + x * 4 + ch).toNat < res.data.size := by
    intro ch hc0 hc3
    have := pixel_window_bound res.width res.height x y ch hw0 hx hx2 hy hy2 hc0 hc3
    omega
  have g0 := getByte_some_of_lt res.data (res.width * y * 4 + x * 4 + 0)
    (hb 0 (by omega) (by omega)).1 (hb 0 (by omega) (by omega)).2
  have g1 := getByte_some_of_lt res.data (res.width * y * 4 + x * 4 + 1)
    (hb 1 (by omega) (by omega)).1 (hb 1 (by omega) (by omega)).2
  have g2 := getByte_some_of_lt res.data (res.width * y * 4 + x * 4 + 2)
    (hb 2 (by omega) (by omega)).1 (hb 2 (by omega) (by omega)).2
  refine ⟨res.data.get ⟨(res.width * y * 4 + x * 4 + 0).toNat, (hb 0 (by omega) (by omega)).2⟩,
    res.data.get ⟨(res.width * y * 4 + x * 4 + 1).toNat, (hb 1 (by omega) (by omega)).2⟩,
    res.data.get ⟨(res.width * y * 4 + x * 4 + 2).toNat, (hb 2 (by omega) (by omega)).2⟩,
    ?_, ?_, ?_, ?_⟩
  · unfold fb_get_pixel_core
    rw [hx32, hy32]
    unfold FB_CHANNEL_R FB_CHANNEL_G FB_CHANNEL_B
    show (getByte res.data (res.width * y * 4 + x * 4 + 0),
      getByte res.data (res.width * y * 4 + x * 4 + 1),
      getByte res.data (res.width * y * 4 + x * 4 + 2)) = _
    rw [g0, g1, g2]
    rfl
  · unfold pixByte
    rw [g0]
    rfl
  · unfold pixByte
    rw [g1]
    rfl
  · unfold pixByte
    rw [g2]
    rfl

theorem convChannel_nine (v0 v1 v2 v3 v4 v5 v6 v7 v8 : Nat)
    (w0 w1 w2 w3 w4 w5 w6 w7 w8 : Int) (divisor offset : Int)
    (hdiv : divisor ≠ 0) :
    convChannel [some v0, some v1, some v2, some v3, some v4, some v5, some v6,
        some v7, some v8] [w0, w1, w2, w3, w4, w5, w6, w7, w8] divisor offset
      = u8Q (((v0 : ℚ) * w0 + v1 * w1 + v2 * w2 + v3 * w3 + v4 * w4 + v5 * w5
          + v6 * w6 + v7 * w7 + v8 * w8) / (divisor : ℚ) + (offset : ℚ)) := by
  unfold convChannel
  simp only [List.zipWith, JSNum.ofChannel, JSNum.mulInt, List.foldl, JSNum.add,
    JSNum.addInt, JSNum.divInt]
  rw [if_neg hdiv]
  simp only [JSNum.add, u8J]
  congr 1
  ring

theorem u8Q_exact (S divisor offset : Int) (hdiv : divisor ≠ 0) (hdvd : divisor ∣ S)
    (h0 : 0 ≤ S / divisor + offset) (h255 : S / divisor + offset ≤ 255) :
    u8Q ((S : ℚ) / (divisor : ℚ) + (offset : ℚ)) = (S / divisor + offset).toNat := by
  obtain ⟨k, hk⟩ := hdvd
  subst hk
  rw [Int.mul_ediv_cancel_left k hdiv] at h0 h255 ⊢
  have hq : ((divisor * k : Int) : ℚ) / (divisor : ℚ) = (k : ℚ) := by
    push_cast
    rw [mul_comm, mul_div_assoc, div_self (by exact_mod_cast hdiv), mul_one]
  rw [hq, ← Int.cast_add, u8Q_intCast _ h0 h255]

theorem conv3_write_interior (res : FBResource) (cm : List Int)
    (divisor offset : Int) (x y : Int) (hwf : WF res) (hdiv : divisor ≠ 0)
    (hx1 : 1 ≤ x) (hx2 : x ≤ res.width - 2) (hy1 : 1 ≤ y) (hy2 : y ≤ res.height - 2) :
    conv3_write res cm divisor offset x y
      = (u8Q ((convSum3 res cm x y 0 : ℚ) / (divisor : ℚ) + (offset : ℚ)),
         u8Q ((convSum3 res cm x y 1 : ℚ) / (divisor : ℚ) + (offset : ℚ)),
         u8Q ((convSum3 res cm x y 2 : ℚ) / (divisor : ℚ) + (offset : ℚ))) := by
  have e1 : ((x : ℚ) - 1) = ((x - 1 : Int) : ℚ) := by push_cast; ring
  have e2 : ((y : ℚ) - 1) = ((y - 1 : Int) : ℚ) := by push_cast; ring
  have e3 : ((x : ℚ) + 1) = ((x + 1 : Int) : ℚ) := by push_cast; ring
  have e4 : ((y : ℚ) + 1) = ((y + 1 : Int) : ℚ) := by push_cast; ring
  obtain ⟨a00, a01, a02, hA0, pa00, pa01, pa02⟩ :=
    fb_get_pixel_core_int_some res (x - 1) (y - 1) hwf (by omega) (by omega) (by omega) (by omega)
  obtain ⟨a10, a11, a12, hA1, pa10, pa11, pa12⟩ :=
    fb_get_pixel_core_int_some res x (y - 1) hwf (by omega) (by omega) (by omega) (by omega)
  obtain ⟨a20, a21, a22, hA2, pa20, pa21, pa22⟩ :=
    fb_get_pixel_core_int_some res (x + 1) (y - 1) hwf (by omega) (by omega) (by omega) (by omega)
  obtain ⟨b00, b01, b02, hB0, pb00, pb01, pb02⟩ :=
    fb_get_pixel_core_int_some res (x - 1) y hwf (by omega) (by omega) (by omega) (by omega)
  obtain ⟨b10, b11, b12, hB1, pb10, pb11, pb12⟩ :=
    fb_get_pixel_core_int_some res x y hwf (by omega) (by omega) (by omega) (by omega)
  obtain ⟨b20, b21, b22, hB2, pb20, pb21, pb22⟩ :=
    fb_get_pixel_core_int_some res (x + 1) y hwf (by omega) (by omega) (by omega) (by omega)
  obtain ⟨c00, c01, c02, hC0, pc00, pc01, pc02⟩ :=
    fb_get_pixel_core_int_some res (x - 1) (y + 1) hwf (by omega) (by omega) (by omega) (by omega)
  obtain ⟨c10, c11, c12, hC1, pc10, pc11, pc12⟩ :=
    fb_get_pixel_core_int_some res x (y + 1) hwf (by omega) (by omega) (by omega) (by omega)
  obtain ⟨c20, c21, c22, hC2, pc20, pc21, pc22⟩ :=
    fb_get_pixel_core_int_some res (x + 1) (y + 1) hwf (by omega) (by omega) (by omega) (by omega)
  simp only [conv3_write]
  rw [e1, e2, e3, e4]
  rw [hA0, hA1, hA2, hB0, hB1, hB2, hC0, hC1, hC2]
  simp only [Prod.mk.injEq]
  refine ⟨?_, ?_, ?_⟩
  · rw [convChannel_nine]
    · congr 1
      unfold convSum3
      rw [← pa00, ← pa10, ← pa20, ← pb00, ← pb10, ← pb20, ← pc00, ← pc10, ← pc20]
      push_cast
      ring
    · exact hdiv
  · rw [convChannel_nine]
    · congr 1
      unfold convSum3
      rw [← pa01, ← pa11, ← pa21, ← pb01, ← pb11, ← pb21, ← pc01, ← pc11, ← pc21]
      push_cast
      ring
    · exact hdiv
  · rw [convChannel_nine]
    · congr 1
      unfold convSum3
      rw [← pa02, ← pa12, ← pa22, ← pb02, ← pb12, ← pb22, ← pc02, ← pc12, ← pc22]
      push_cast
      ring
    · exact hdiv

theorem fb_convolution_matrix_nine (cfg : ConfigState) (now : Nat)
    (res : FBResource) (matrix : List Int) (divisor offset : Int)
    (h9 : matrix.length = 9) :
    ∃ out, fb_convolution_matrix cfg now (some res) matrix divisor offset
        = FBResult.res out ∧
      out.data = conv_fold3 res matrix divisor offset (fb_copy_data cfg now res 0 1 2) := by
  have h25 : matrix.length ≠ 25 := by omega
  simp only [fb_convolution_matrix]
  rw [if_neg (by omega : ¬(matrix.length ≠ 9 ∧ matrix.length ≠ 25)), fb_copy_eq]
  obtain ⟨c, hc, hcd, _⟩ := fb_defer_parts { fb_create cfg now res.width res.height with
    data := fb_copy_data cfg now res 0 1 2
    canvas := fb_copy_data cfg now res 0 1 2 } now
  simp only [hc]
  rw [if_neg h25, if_pos h9]
  have hcd2 : c.data = fb_copy_data cfg now res 0 1 2 := hcd
  rw [hcd2]
  exact match_defer_res_data _ now

/-- The value `fb_convolution_matrix` stores at an interior pixel for a 3x3
kernel: the convolution expression coerced through the byte store. -/
theorem conv3_pixel_value (cfg : ConfigState) (now : Nat) (res : FBResource)
    (matrix : List Int) (divisor offset : Int) (x y : Int)
    (hwf : WF res) (h9 : matrix.length = 9) (hdiv : divisor ≠ 0)
    (hx1 : 1 ≤ x) (hx2 : x ≤ res.width - 2) (hy1 : 1 ≤ y) (hy2 : y ≤ res.height - 2) :
    ∃ out, fb_convolution_matrix cfg now (some res) matrix divisor offset
        = FBResult.res out ∧
      getByte out.data (res.width * y * 4 + x * 4 + 0)
        = some (u8Q ((convSum3 res matrix x y 0 : ℚ) / (divisor : ℚ) + (offset : ℚ))) ∧
      getByte out.data (res.width * y * 4 + x * 4 + 1)
        = some (u8Q ((convSum3 res matrix x y 1 : ℚ) / (divisor : ℚ) + (offset : ℚ))) ∧
      getByte out.data (res.width * y * 4 + x * 4 + 2)
        = some (u8Q ((convSum3 res matrix x y 2 : ℚ) / (divisor : ℚ) + (offset : ℚ))) := by
  obtain ⟨hw0, hwmax, hh0, hhmax, hsize⟩ := hwf
  obtain ⟨out, hres, hdata⟩ :=
    fb_convolution_matrix_nine cfg now res matrix divisor offset h9
  have hsz : (fb_copy_data cfg now res 0 1 2).size
      = (res.width * res.height * 4).toNat := by
    rw [size_fb_copy_data, fb_create_ok cfg now res.width res.height hw0 hwmax hh0 hhmax]
    simp [Array.size_mkArray]
  have hbound := pixel_window_bound res.width res.height x y 2 hw0 (by omega)
    (by omega) (by omega) (by omega) (by omega) (by omega)
  have hP0 : 0 ≤ res.width * y * 4 + x * 4 := by omega
  have hPsz : ((res.width * y * 4 + x * 4) + 2).toNat
      < (fb_copy_data cfg now res 0 1 2).size := by omega
  have hval := conv3_write_interior res matrix divisor offset x y
    ⟨hw0, hwmax, hh0, hhmax, hsize⟩ hdiv hx1 hx2 hy1 hy2
  have hhit := getByte_foldWrite3_hit (fun p => res.width * p.2 * 4 + p.1 * 4)
    (fun p => conv3_write res matrix divisor offset p.1 p.2)
    (gridPairs res.width res.height) (fb_copy_data cfg now res 0 1 2)
    (res.width * y * 4 + x * 4) (conv3_write res matrix divisor offset x y)
    (fun a _ => by
      change (res.width * a.2 * 4 + a.1 * 4) % 4 = 0
      omega)
    (fun a ha hpa => by
      obtain ⟨m1, m2, m3, m4⟩ := mem_gridPairs.mp ha
      obtain ⟨hpx, hpy⟩ := pixelIndex_inj res.width a.1 a.2 x y hw0 m1 m2
        (by omega) (by omega) hpa
      show conv3_write res matrix divisor offset a.1 a.2
        = conv3_write res matrix divisor offset x y
      rw [hpx, hpy])
    ⟨(x, y), mem_gridPairs.mpr ⟨by omega, by omega, by omega, by omega⟩, rfl⟩
    hP0 hPsz
  refine ⟨out, hres, ?_, ?_, ?_⟩
  · have := hhit 0 (by omega)
    rw [hdata, conv_fold3_eq]
    rw [hval] at this
    simp only [Nat.cast_zero, chan] at this
    rw [this]
  · have := hhit 1 (by omega)
    rw [hdata, conv_fold3_eq]
    rw [hval] at this
    simp only [Nat.cast_one, chan] at this
    rw [this]
  · have := hhit 2 (by omega)
    rw [hdata, conv_fold3_eq]
    rw [hval] at this
    simp only [Nat.cast_ofNat, chan] at this
    rw [this]

/-- C5 counterexample: with the all-zero 3x3 kernel, divisor 1 and offset
300 on an all-white 3x3 image, the claim says the R channel of the interior
pixel (1, 1) equals `0 / 1 + 300 = 300`; the `Uint8ClampedArray` store
clamps it to 255. -/
theorem c5_offset_clamped :
    (∃ out, fb_convolution_matrix fb_config_initial 0
        (some (fb_create fb_config_initial 0 3 3))
        [0, 0, 0, 0, 0, 0, 0, 0, 0] 1 300 = FBResult.res out ∧
      getByte out.data ((fb_create fb_config_initial 0 3 3).width * 1 * 4 + 1 * 4 + 0)
        = some 255) ∧
    convSum3 (fb_create fb_config_initial 0 3 3) [0, 0, 0, 0, 0, 0, 0, 0, 0] 1 1 0
        / 1 + 300 = 300 := by
  obtain ⟨out, hres, h0, _, _⟩ :=
    conv3_pixel_value fb_config_initial 0 (fb_create fb_config_initial 0 3 3)
      [0, 0, 0, 0, 0, 0, 0, 0, 0] 1 300 1 1
      (by decide) (by decide) (by decide) (by decide) (by decide) (by decide) (by decide)
  have hS : convSum3 (fb_create fb_config_initial 0 3 3)
      [0, 0, 0, 0, 0, 0, 0, 0, 0] 1 1 0 = 0 := by decide
  rw [hS] at h0
  have hq : (((0 : Int) : ℚ)) / ((1 : Int) : ℚ) + ((300 : Int) : ℚ) = (300 : ℚ) := by
    norm_num
  rw [hq] at h0
  have h255 : u8Q (300 : ℚ) = 255 := by
    unfold u8Q
    rw [if_neg (by norm_num), if_pos (by norm_num)]
  rw [h255] at h0
  exact ⟨⟨out, hres, h0⟩, by decide⟩

/-- C5 (amended): for a valid resource and a 3x3 kernel, every interior
pixel of the result carries, per RGB channel, the neighborhood sum of
source channel times kernel weight, divided by `divisor`, plus `offset` —
coerced through the `Uint8ClampedArray` store.  The equality of the claim
holds verbatim whenever `divisor` divides each channel sum exactly and the
resulting value lies in 0..255 (the regime where the byte store is the
identity; outside it the store clamps to 0..255 and rounds). -/
theorem c5_convolution_3x3 (cfg : ConfigState) (now : Nat) (res : FBResource)
    (matrix : List Int) (divisor offset : Int) (x y : Int)
    (hwf : WF res) (h9 : matrix.length = 9) (hdiv : divisor ≠ 0)
    (hx1 : 1 ≤ x) (hx2 : x ≤ res.width - 2) (hy1 : 1 ≤ y) (hy2 : y ≤ res.height - 2)
    (hd0 : divisor ∣ convSum3 res matrix x y 0)
    (hd1 : divisor ∣ convSum3 res matrix x y 1)
    (hd2 : divisor ∣ convSum3 res matrix x y 2)
    (hlo0 : 0 ≤ convSum3 res matrix x y 0 / divisor + offset)
    (hhi0 : convSum3 res matrix x y 0 / divisor + offset ≤ 255)
    (hlo1 : 0 ≤ convSum3 res matrix x y 1 / divisor + offset)
    (hhi1 : convSum3 res matrix x y 1 / divisor + offset ≤ 255)
    (hlo2 : 0 ≤ convSum3 res matrix x y 2 / divisor + offset)
    (hhi2 : convSum3 res matrix x y 2 / divisor + offset ≤ 255) :
    ∃ out, fb_convolution_matrix cfg now (some res) matrix divisor offset
        = FBResult.res out ∧
      getByte out.data (res.width * y * 4 + x * 4 + 0)
        = some (convSum3 res matrix x y 0 / divisor + offset).toNat ∧
      getByte out.data (res.width * y * 4 + x * 4 + 1)
        = some (convSum3 res matrix x y 1 / divisor + offset).toNat ∧
      getByte out.data (res.width * y * 4 + x * 4 + 2)
        = some (convSum3 res matrix x y 2 / divisor + offset).toNat := by
  obtain ⟨out, hres, h0, h1, h2⟩ :=
    conv3_pixel_value cfg now res matrix divisor offset x y hwf h9 hdiv hx1 hx2 hy1 hy2
  rw [u8Q_exact _ _ _ hdiv hd0 hlo0 hhi0] at h0
  rw [u8Q_exact _ _ _ hdiv hd1 hlo1 hhi1] at h1
  rw [u8Q_exact _ _ _ hdiv hd2 hlo2 hhi2] at h2
  exact ⟨out, hres, h0, h1, h2⟩

theorem c5_convolution_3x3_witness :
    ∃ out, fb_convolution_matrix fb_config_initial 0
        (some (fb_create fb_config_initial 0 3 3))
        [0, 0, 0, 0, 1, 0, 0, 0, 0] 1 0 = FBResult.res out ∧
      getByte out.data ((fb_create fb_config_initial 0 3 3).width * 1 * 4 + 1 * 4 + 0)
        = some (convSum3 (fb_create fb_config_initial 0 3 3)
            [0, 0, 0, 0, 1, 0, 0, 0, 0] 1 1 0 / 1 + 0).toNat := by
  obtain ⟨out, h1, h2, _, _⟩ :=
    c5_convolution_3x3 fb_config_initial 0 (fb_create fb_config_initial 0 3 3)
      [0, 0, 0, 0, 1, 0, 0, 0, 0] 1 0 1 1
      (by decide) (by decide) (by decide) (by decide) (by decide) (by decide)
      (by decide) (one_dvd _) (one_dvd _) (one_dvd _) (by decide) (by decide)
      (by decide) (by decide) (by decide) (by decide)
  exact ⟨out, h1, h2⟩

/-! ## Flood fill escapes the image (C3) -/

/-- A 3x3 test image.  Pixel colors (RGB, alpha 255):
row 0: (20,20,20) (20,20,20) (10,10,10);
row 1: (10,10,10) (20,20,20) (20,20,20);
row 2: (20,20,20) (20,20,20) (20,20,20).
The 4-connected region of color (10,10,10) seeded at (2,0) is the single
pixel (2,0): its in-image neighbors (1,0) and (2,1) have a different
color.  Pixel (0,1) also has color (10,10,10) but is not connected to the
seed. -/
def c3_resource : FBResource :=
  { width := 3, height := 3
    data := #[20, 20, 20, 255, 20, 20, 20, 255, 10, 10, 10, 255,
              10, 10, 10, 255, 20, 20, 20, 255, 20, 20, 20, 255,
              20, 20, 20, 255, 20, 20, 20, 255, 20, 20, 20, 255]
    canvas := #[20, 20, 20, 255, 20, 20, 20, 255, 10, 10, 10, 255,
                10, 10, 10, 255, 20, 20, 20, 255, 20, 20, 20, 255,
                20, 20, 20, 255, 20, 20, 20, 255, 20, 20, 20, 255]
    created := 0, updated := 0, loaded := true, locked := false
    dirty := 0, defer := JSVal.num FB_DEFER_WRITE_BACK, error := none }

/-- C3 code bug: `fb_fill(c3_resource, 2, 0, 30, 30, 30)` must, per the
claim, recolor exactly the 4-connected region of the seed — the lone pixel
(2, 0) — and leave everything else unchanged.  The stack loop admits
`x = width` (its check is `x > resource.width`, not `>=`), and at
`(3, 0)` the flat index `3*0*4 + 3*4 = 12` aliases pixel `(0, 1)`, whose
color happens to match the seed, so the fill recolors the unconnected
pixel `(0, 1)` from (10,10,10) to (30,30,30). -/
theorem c3_fill_escapes_region :
    ((fb_fill (some c3_resource) 2 0 30 30 30 0 100).map
        (fun p => (p.1, p.2.map (fun r => getByte r.data 12)))
      = some (true, some (some 30))) ∧
    getByte c3_resource.data 12 = some 10 ∧
    fb_get_pixel_core c3_resource ((1 : Int) : ℚ) ((0 : Int) : ℚ)
      ≠ fb_get_pixel_core c3_resource ((2 : Int) : ℚ) ((0 : Int) : ℚ) ∧
    fb_get_pixel_core c3_resource ((2 : Int) : ℚ) ((1 : Int) : ℚ)
      ≠ fb_get_pixel_core c3_resource ((2 : Int) : ℚ) ((0 : Int) : ℚ) := by
  refine ⟨?_, ?_, ?_, ?_⟩
  · decide
  · decide
  · decide
  · decide

/-! ## Resize early return (C6) -/

/-- C6 code bug: resizing a 2x2 resource to 3x2 — dimensions different from
the current ones, both positive — returns the original resource itself,
unresized (width still 2), because the early-return condition
`w == 0 || w == resource.width && h == 0 || h == resource.height` is true
whenever `h` equals the current height.  The code comment above it says the
affectee is returned only when the dimensions have not changed. -/
theorem c6_resize_height_early_return :
    fb_resize fb_config_initial 0 (some (fb_create fb_config_initial 0 2 2)) 3 2 false
      = some (fb_create fb_config_initial 0 2 2) ∧
    (fb_create fb_config_initial 0 2 2).width = 2 ∧ (3 : Int) ≠ 2 := by
  refine ⟨?_, ?_, ?_⟩
  · decide
  · decide
  · decide

/-! ## Configuration getter and setter (C8) -/

theorem fb_config_value_set (cfg : ConfigState) (key : String) (v : JSVal)
    (hk : key ∈ fb_config_map_keys) :
    fb_config_value (fb_config_set cfg key v) key = v := by
  fin_cases hk <;> rfl

theorem str_default_not_allowed (key : String) (hk : key ∈ fb_config_map_keys) :
    JSVal.str "<default>" ∉ fb_config_allowed key := by
  fin_cases hk <;> decide

/-- C8 counterexample: `fb_config("alpha", "<default>")` succeeds (returns
true and resets the key) even though the string `"<default>"` is not in the
allowed list of `alpha` — the claim says any value outside the allowed list
yields an `FB_ERR_BAD_CFG_VALUE` error and changes nothing. -/
theorem c8_default_bypasses_allowed :
    (fb_config fb_config_initial (some "alpha") (some (JSVal.str "<default>"))).1
      = FBCfgResult.ok ∧
    JSVal.str "<default>" ∉ fb_config_allowed "alpha" := by
  constructor
  · decide
  · decide

/-- C8 (amended): the reserved value `"<default>"` resets a known key to
its default and returns true without consulting the allowed list; for every
other value: a known key with a value outside its allowed list yields an
error tagged `FB_ERR_BAD_CFG_VALUE` and leaves the whole configuration
state (this key and every other) unchanged; an allowed value is stored by
the per-key setter (which for `alpha` and `desync` also updates the matching
canvas-context attribute) and true is returned; the getter form returns the
currently stored value.  An unknown key yields `FB_ERR_BAD_CFG_KEY` and
changes nothing. -/
theorem c8_config (cfg : ConfigState) (key : String) (v : JSVal) :
    (key ∈ fb_config_map_keys →
      (v ≠ .str "<default>" → v ∉ fb_config_allowed key →
        fb_config cfg (some key) (some v)
          = (.err (fb_error .FB_ERR_BAD_CFG_VALUE FB_ORIGIN_SYSTEM), cfg)) ∧
      (v ∈ fb_config_allowed key →
        (fb_config cfg (some key) (some v)).1 = .ok ∧
        fb_config_value (fb_config cfg (some key) (some v)).2 key = v) ∧
      (fb_config cfg (some key) (some (.str "<default>"))
        = (.ok, fb_config_set cfg key (fb_config_map_default key))) ∧
      (fb_config cfg (some key) none = (.val (fb_config_value cfg key), cfg))) ∧
    (key ∉ fb_config_map_keys →
      fb_config cfg (some key) (some v)
        = (.err (fb_error .FB_ERR_BAD_CFG_KEY FB_ORIGIN_SYSTEM), cfg) ∧
      fb_config cfg (some key) none
        = (.err (fb_error .FB_ERR_BAD_CFG_KEY FB_ORIGIN_SYSTEM), cfg)) := by
  constructor
  · intro hk
    refine ⟨?_, ?_, ?_, ?_⟩
    · intro hnd hna
      simp only [fb_config]
      rw [if_pos hk, if_neg hnd, if_neg hna]
    · intro ha
      have hnd : v ≠ .str "<default>" := by
        intro h
        exact str_default_not_allowed key hk (h ▸ ha)
      simp only [fb_config]
      rw [if_pos hk, if_neg hnd, if_pos ha]
      exact ⟨rfl, fb_config_value_set cfg key v hk⟩
    · simp only [fb_config]
      rw [if_pos hk, if_pos trivial]
    · simp only [fb_config]
      rw [if_pos hk]
  · intro hk
    constructor
    · simp only [fb_config]
      rw [if_neg hk]
    · simp only [fb_config]
      rw [if_neg hk]

theorem c8_config_witness :
    (fb_config fb_config_initial (some "defer") (some (JSVal.num 0))).1
      = FBCfgResult.ok ∧
    fb_config_value
        (fb_config fb_config_initial (some "defer") (some (JSVal.num 0))).2 "defer"
      = JSVal.num 0 :=
  ((c8_config fb_config_initial "defer" (JSVal.num 0)).1 (by decide)).2.1 (by decide)
